import Mathlib

/-!
# port_utilization: interface resolution and counter sampling

A shallow embedding of `port_utilization.go` (package `main`): the functions
`NewDashboard`, `Dashboard.parseIfName` and `Dashboard.UpdateData`, together
with the pieces of the Go runtime they rely on (panics, `strconv`, `strings`,
`math/big`, `float64` arithmetic, slices).

Code that lives outside the repository (the `snmpgo` session and library, the
Unicode case tables behind `strings.ToUpper`) is not modelled: it is a
parameter, the structure `Env`, and every theorem holds for every `Env`.
-/

set_option maxRecDepth 100000

namespace PortUtilization

/-! ## Go runtime: panics -/

/-- Outcome of running a piece of Go code: it returns a value or it panics
(nil dereference, index out of range, `MustNewOid` on a malformed string). -/
inductive Run (α : Type) where
  | done (a : α)
  | panic
deriving DecidableEq, Repr

namespace Run

/-- Sequencing: a panic aborts everything that follows. -/
def bind {α β : Type} (x : Run α) (f : α → Run β) : Run β :=
  match x with
  | done a => f a
  | panic => panic

instance : Monad Run where
  pure := Run.done
  bind := Run.bind

/-- Dereference of a pointer that may be nil. -/
def deref {α : Type} : Option α → Run α
  | some a => done a
  | none => panic

end Run

/-! ## Go runtime: `regexp`, `strconv`, `strings` -/

/-- The match `regexp.MustCompile("^\\.\\d+$").MatchString(name)`: a dot
followed by one or more ASCII digits, and nothing else. -/
def MatchString (name : String) : Bool :=
  match name.data with
  | '.' :: ds => !ds.isEmpty && ds.all Char.isDigit
  | _ => false

/-- The function `strconv.Atoi` on a 64-bit platform: the value and whether
the returned error is nil. Out of range the value is clamped to the nearest
`int64` bound, on a syntax error it is 0. -/
def Atoi (s : String) : Int × Bool :=
  let (neg, ds) : Bool × List Char :=
    match s.data with
    | '+' :: r => (false, r)
    | '-' :: r => (true, r)
    | r => (false, r)
  if ds.isEmpty || !ds.all Char.isDigit then (0, false)
  else
    let un : Nat := ds.foldl (fun a c => 10 * a + (c.toNat - 48)) 0
    if !neg && 2 ^ 63 ≤ un then (2 ^ 63 - 1, false)
    else if neg && 2 ^ 63 < un then (-(2 ^ 63), false)
    else (if neg then -(un : Int) else (un : Int), true)

/-- The function `strconv.Itoa`: decimal rendering, `-` for negatives. -/
def Itoa (i : Int) : String := toString i

/-- Search loop of `strings.Index`: position `i` is the offset of `s` in the
original string. -/
def IndexFrom (substr : List Char) : List Char → Nat → Int
  | [], i => if substr.isEmpty then (i : Int) else -1
  | c :: cs, i => if substr.isPrefixOf (c :: cs) then (i : Int) else IndexFrom substr cs (i + 1)

/-- The function `strings.Index(s, substr)`: offset of the first occurrence
of `substr` in `s`, or -1. -/
def Index (s substr : String) : Int := IndexFrom substr.data s.data 0

/-! ## Go runtime: `math/big` -/

/-- Conversion `int64(u)` of an unsigned 64-bit word (two's complement). -/
def toInt64 (u : Nat) : Int :=
  if u % 2 ^ 64 < 2 ^ 63 then ((u % 2 ^ 64 : Nat) : Int) else ((u % 2 ^ 64 : Nat) : Int) - 2 ^ 64

/-- Negation of an `int64`, wrapping at `-2^63`. -/
def negInt64 (v : Int) : Int := if v = -(2 ^ 63) then v else -v

/-- The method `(*big.Int).Int64` on a non-nil receiver: the low 64 bits of
the magnitude as an `int64`, negated when the big integer is negative. -/
def Int64 (x : Int) : Int :=
  let v := toInt64 (x.natAbs % 2 ^ 64)
  if x < 0 then negInt64 v else v

/-- The method call `x.Int64()` through a `*big.Int` that may be nil. -/
def ptrInt64 (x : Option Int) : Run Int :=
  match x with
  | some v => Run.done (Int64 v)
  | none => Run.panic

/-- The call `z.Sub(x, y)` on `*big.Int` operands that may be nil: the exact
integer difference. -/
def Sub (x y : Option Int) : Run (Option Int) :=
  match x, y with
  | some a, some b => Run.done (some (a - b))
  | _, _ => Run.panic

/-! ## Go runtime: `float64` (IEEE 754 binary64, round to nearest even) -/

/-- A `float64` value. A finite value is `(-1)^neg * m * 2^e` with
`m < 2^53` and `-1074 ≤ e ≤ 971`, and `2^52 ≤ m` unless `e = -1074`. -/
inductive F64 where
  | finite (neg : Bool) (m : Nat) (e : Int)
  | inf (neg : Bool)
  | nan
deriving DecidableEq, Repr

namespace F64

/-- Auxiliary recursion of `log2` on a fuel argument. -/
def log2Fuel : Nat → Nat → Nat
  | 0, _ => 0
  | fuel + 1, n => if n < 2 then 0 else log2Fuel fuel (n / 2) + 1

/-- Position of the highest set bit of `n` (0 for `n = 0`). -/
def log2 (n : Nat) : Nat := log2Fuel n n

/-- The integer `⌊log₂ (n / d)⌋` for positive `n` and `d`. -/
def floorLog2 (n d : Nat) : Int :=
  let l : Int := (log2 n : Int) - (log2 d : Int)
  if d * 2 ^ l.toNat ≤ n * 2 ^ (-l).toNat then l else l - 1

/-- The integer nearest to `N / D`, a tie going to the even neighbour. -/
def roundHalfEven (N D : Nat) : Nat :=
  let q := N / D
  let r := N % D
  if 2 * r < D then q else if D < 2 * r then q + 1 else if q % 2 = 0 then q else q + 1

/-- The binary64 value nearest to `(-1)^neg * n / d` (ties to even), for
`d > 0`: the exponent of the last place is `p`, the quotient `n / (d * 2^p)`
is rounded to an integer, and a result of `2^1024` or more is an infinity. -/
def roundRat (neg : Bool) (n d : Nat) : F64 :=
  if n = 0 then finite neg 0 (-1074)
  else
    let p : Int := max (floorLog2 n d - 52) (-1074)
    let m := roundHalfEven (n * 2 ^ (-p).toNat) (d * 2 ^ p.toNat)
    if m = 2 ^ 53 then (if 971 < p + 1 then inf neg else finite neg (2 ^ 52) (p + 1))
    else (if 971 < p then inf neg else finite neg m p)

/-- Conversion `float64(i)` of an integer. -/
def ofInt (i : Int) : F64 := roundRat (decide (i < 0)) i.natAbs 1

/-- Product `x * y`. -/
def mul : F64 → F64 → F64
  | finite s m e, finite s' m' e' =>
      roundRat (xor s s') (m * m' * 2 ^ (e + e').toNat) (2 ^ (-(e + e')).toNat)
  | finite s m _, inf s' => if m = 0 then nan else inf (xor s s')
  | inf s, finite s' m _ => if m = 0 then nan else inf (xor s s')
  | inf s, inf s' => inf (xor s s')
  | _, _ => nan

/-- Quotient `x / y`; a division by zero yields an infinity or NaN, it does
not panic. -/
def div : F64 → F64 → F64
  | finite s m e, finite s' m' e' =>
      if m' = 0 then (if m = 0 then nan else inf (xor s s'))
      else roundRat (xor s s') (m * 2 ^ (e - e').toNat) (m' * 2 ^ (e' - e).toNat)
  | finite s _ _, inf s' => finite (xor s s') 0 (-1074)
  | inf s, finite s' _ _ => inf (xor s s')
  | _, _ => nan

/-- Whether the value is neither an infinity nor NaN. -/
def isFinite : F64 → Bool
  | finite _ _ _ => true
  | _ => false

/-- The rational number a finite value denotes. -/
def toRat : F64 → Option ℚ
  | finite s m e => some ((if s then -1 else 1) * (m : ℚ) * (2 : ℚ) ^ e)
  | _ => none

end F64

/-! ## Go runtime: slices -/

/-- A slice: its elements and the capacity of its backing array. -/
structure Slice (α : Type) where
  elems : List α
  cap : Nat
deriving DecidableEq, Repr

/-- The call `make([]T, 0, cap)`. -/
def make (α : Type) (cap : Nat) : Slice α := ⟨[], cap⟩

/-- The built-in `append(s, x)`: within capacity the element is stored in
place, otherwise the runtime moves the elements to a larger array (modelled
as doubling; the program never reads the capacity). No element is dropped. -/
def append {α : Type} (s : Slice α) (x : α) : Slice α :=
  if s.elems.length < s.cap then ⟨s.elems ++ [x], s.cap⟩
  else ⟨s.elems ++ [x], max (2 * s.cap) (s.elems.length + 1)⟩

/-! ## Collaborators outside the repository -/

/-- Value of `snmpgo.Oid`: the list of sub-identifiers (`Oid.Value`). -/
abbrev Oid := List Int

/-- An `snmpgo.Variable`, seen through the two methods the program calls:
`String()` and `BigInt()` (`none` when it returns `(nil, err)`). -/
structure Variable where
  Str : String
  BigInt : Option Int
deriving DecidableEq, Repr

/-- An `snmpgo.VarBind`. -/
structure VarBind where
  Oid : Oid
  Variable : Variable
deriving DecidableEq, Repr

/-- The status `snmpgo.NoError`. -/
def NoError : Nat := 0

/-- An `snmpgo.Pdu`, seen through the methods the program calls:
`ErrorStatus()`, `ErrorIndex()`, `VarBinds().MatchOid(oid)` (`none` for a nil
result) and `VarBinds().MatchBaseOids(oid)`. -/
structure Pdu where
  ErrorStatus : Nat
  ErrorIndex : Nat
  MatchOid : Oid → Option VarBind
  MatchBaseOids : Oid → List VarBind

/-- What the program calls outside the repository at one point in time:
`snmpgo.MustNewOid` (`none` when it panics), the session methods
`GetRequest` and `GetBulkWalk` (an error message or a PDU), and
`strings.ToUpper`. -/
structure Env where
  MustNewOid : String → Option Oid
  GetRequest : List Oid → Except String Pdu
  GetBulkWalk : List Oid → Int → Int → Except String Pdu
  ToUpper : String → String

/-- The Go `error` values the program returns. -/
inductive GoError where
  | transport (msg : String)
  | failed (status : Nat) (index : Nat)
  | notFound (name : String)
deriving DecidableEq, Repr

/-! ## The program: data -/

/-- The struct `ifStats`: six `*big.Int` counters, `none` for a nil pointer. -/
structure ifStats where
  ifHCInOctets : Option Int
  ifInDiscards : Option Int
  ifInErrors : Option Int
  ifHCOutOctets : Option Int
  ifOutDiscards : Option Int
  ifOutErrors : Option Int
deriving DecidableEq, Repr

/-- Text of the paragraph `Par1`, given by the four arguments of its
`Sprintf`: the system name, the interface name, the alias and
`ifHighSpeed.Int64()`. Trimming and layout belong to the UI library. -/
structure Par1Text where
  sysName : String
  ifName : String
  ifAlias : String
  ifSpeed : Int
deriving DecidableEq, Repr

/-- Text of the paragraph `Par2`, given by the six `int64` values handed to
`hu.Comma`, in the order of the `Sprintf` arguments. -/
structure Par2Text where
  ifHCInOctets : Int
  ifHCOutOctets : Int
  ifInDiscards : Int
  ifOutDiscards : Int
  ifInErrors : Int
  ifOutErrors : Int
deriving DecidableEq, Repr

/-- The struct `Dashboard`. The session handle `snmp` is the `Env` passed to
each method; `Par1` and `Par2` are `none` while their text is empty;
`ChartRx` and `ChartTx` are the series `Data["rate"]` of the two charts. -/
structure Dashboard where
  ifIndex : Int
  ifSpeed : Option Int
  ifStats : Option ifStats
  Par1 : Option Par1Text
  Par2 : Option Par2Text
  ChartRx : Slice F64
  ChartTx : Slice F64
deriving DecidableEq, Repr

/-! ## The program: `parseIfName` -/

/-- The loop of `parseIfName` over `pdu.VarBinds().MatchBaseOids(oid_ifName)`:
the first entry whose upper-cased name contains the upper-cased token wins;
its index is the sub-identifier that follows the base OID. -/
def walkLoop (env : Env) (name : String) (oid_ifName : Oid) :
    List VarBind → Run (String × Int × Option GoError)
  | [] => Run.done ("", 0, some (GoError.notFound name))
  | varBind :: rest =>
      if Index (env.ToUpper varBind.Variable.Str) (env.ToUpper name) ≠ -1 then
        match varBind.Oid.get? oid_ifName.length with
        | some ifIndex => Run.done (varBind.Variable.Str, ifIndex, none)
        | none => Run.panic
      else walkLoop env name oid_ifName rest

/-- The method `Dashboard.parseIfName`: the returned triple
`(ifName, ifIndex, err)`. -/
def parseIfName (env : Env) (name : String) : Run (String × Int × Option GoError) :=
  if MatchString name then
    match env.MustNewOid ("1.3.6.1.2.1.31.1.1.1.1" ++ name) with
    | none => Run.panic
    | some oid_ifName =>
      match env.GetRequest [oid_ifName] with
      | Except.error err => Run.done ("", 0, some (GoError.transport err))
      | Except.ok pdu =>
        if pdu.ErrorStatus ≠ NoError then
          Run.done ("", 0, some (GoError.failed pdu.ErrorStatus pdu.ErrorIndex))
        else
          match pdu.MatchOid oid_ifName with
          | none => Run.panic
          | some varBind =>
            Run.done (varBind.Variable.Str, (Atoi (name.drop 1)).1, none)
  else
    match env.MustNewOid "1.3.6.1.2.1.31.1.1.1.1" with
    | none => Run.panic
    | some oid_ifName =>
      match env.GetBulkWalk [oid_ifName] 0 10 with
      | Except.error err => Run.done ("", 0, some (GoError.transport err))
      | Except.ok pdu =>
        if pdu.ErrorStatus ≠ NoError then
          Run.done ("", 0, some (GoError.failed pdu.ErrorStatus pdu.ErrorIndex))
        else
          walkLoop env name oid_ifName (pdu.MatchBaseOids oid_ifName)

/-! ## The program: `NewDashboard` -/

/-- The dashboard `NewDashboard` allocates before it resolves the interface:
empty paragraphs and two empty series of capacity 120. -/
def emptyDashboard : Dashboard :=
  { ifIndex := 0, ifSpeed := none, ifStats := none, Par1 := none, Par2 := none,
    ChartRx := make F64 120, ChartTx := make F64 120 }

/-- The function `NewDashboard`: the returned pair `(*Dashboard, error)`. -/
def NewDashboard (env : Env) (name : String) : Run (Option Dashboard × Option GoError) :=
  let b := emptyDashboard
  match parseIfName env name with
  | Run.panic => Run.panic
  | Run.done (_, _, some err) => Run.done (none, some err)
  | Run.done (ifName, ifIndex, none) =>
    match env.MustNewOid "1.3.6.1.2.1.1.5.0",
          env.MustNewOid ("1.3.6.1.2.1.31.1.1.1.18." ++ Itoa ifIndex),
          env.MustNewOid ("1.3.6.1.2.1.31.1.1.1.15." ++ Itoa ifIndex) with
    | some oid_sysName, some oid_ifAlias, some oid_ifHighSpeed =>
      match env.GetRequest [oid_sysName, oid_ifAlias, oid_ifHighSpeed] with
      | Except.error err => Run.done (none, some (GoError.transport err))
      | Except.ok pdu =>
        if pdu.ErrorStatus ≠ NoError then
          Run.done (none, some (GoError.failed pdu.ErrorStatus pdu.ErrorIndex))
        else do
          let vSysName ← Run.deref (pdu.MatchOid oid_sysName)
          let sysName := vSysName.Variable.Str
          let vIfAlias ← Run.deref (pdu.MatchOid oid_ifAlias)
          let ifAlias := vIfAlias.Variable.Str
          let vIfHighSpeed ← Run.deref (pdu.MatchOid oid_ifHighSpeed)
          let ifHighSpeed := vIfHighSpeed.Variable.BigInt
          let speed ← ptrInt64 ifHighSpeed
          Run.done
            (some { b with
                Par1 := some ⟨sysName, ifName, ifAlias, speed⟩,
                ifIndex := ifIndex,
                ifSpeed := ifHighSpeed },
             none)
    | _, _, _ => Run.panic

/-! ## The program: `UpdateData` -/

/-- Lines 175 to 180 of `UpdateData`: the six counter OIDs of the interface. -/
def counterOids (env : Env) (ifIndex : Int) : Run (List Oid) :=
  match env.MustNewOid ("1.3.6.1.2.1.31.1.1.1.6." ++ Itoa ifIndex),
        env.MustNewOid ("1.3.6.1.2.1.2.2.1.13." ++ Itoa ifIndex),
        env.MustNewOid ("1.3.6.1.2.1.2.2.1.14." ++ Itoa ifIndex),
        env.MustNewOid ("1.3.6.1.2.1.31.1.1.1.10." ++ Itoa ifIndex),
        env.MustNewOid ("1.3.6.1.2.1.2.2.1.19." ++ Itoa ifIndex),
        env.MustNewOid ("1.3.6.1.2.1.2.2.1.20." ++ Itoa ifIndex) with
  | some o1, some o2, some o3, some o4, some o5, some o6 => Run.done [o1, o2, o3, o4, o5, o6]
  | _, _, _, _, _, _ => Run.panic

/-- One line of the decoding at lines 198 to 203:
`pdu.VarBinds().MatchOid(oid).Variable.BigInt()`, the error discarded. -/
def decodeCounter (pdu : Pdu) (oid : Oid) : Run (Option Int) :=
  match pdu.MatchOid oid with
  | some varBind => Run.done varBind.Variable.BigInt
  | none => Run.panic

/-- Lines 197 to 203 of `UpdateData`: the sample `stats` decoded from the
response, for the OIDs in the order of the request. -/
def decodeStats (pdu : Pdu) (oids : List Oid) : Run ifStats :=
  match oids with
  | [o1, o2, o3, o4, o5, o6] => do
    let ifHCInOctets ← decodeCounter pdu o1
    let ifInDiscards ← decodeCounter pdu o2
    let ifInErrors ← decodeCounter pdu o3
    let ifHCOutOctets ← decodeCounter pdu o4
    let ifOutDiscards ← decodeCounter pdu o5
    let ifOutErrors ← decodeCounter pdu o6
    Run.done ⟨ifHCInOctets, ifInDiscards, ifInErrors, ifHCOutOctets, ifOutDiscards, ifOutErrors⟩
  | _ => Run.panic

/-- Lines 205 to 220 of `UpdateData`: `delta` starts as six zeros and, when
a previous sample is stored, becomes the difference of the two samples. -/
def computeDelta (prev : Option ifStats) (stats : ifStats) : Run ifStats :=
  match prev with
  | none => Run.done ⟨some 0, some 0, some 0, some 0, some 0, some 0⟩
  | some old => do
    let ifHCInOctets ← Sub stats.ifHCInOctets old.ifHCInOctets
    let ifInDiscards ← Sub stats.ifInDiscards old.ifInDiscards
    let ifInErrors ← Sub stats.ifInErrors old.ifInErrors
    let ifHCOutOctets ← Sub stats.ifHCOutOctets old.ifHCOutOctets
    let ifOutDiscards ← Sub stats.ifOutDiscards old.ifOutDiscards
    let ifOutErrors ← Sub stats.ifOutErrors old.ifOutErrors
    Run.done ⟨ifHCInOctets, ifInDiscards, ifInErrors, ifHCOutOctets, ifOutDiscards, ifOutErrors⟩

/-- Lines 229 to 236 of `UpdateData`: the six values shown in `Par2`. -/
def rawData (delta : ifStats) : Run Par2Text := do
  let a ← ptrInt64 delta.ifHCInOctets
  let b ← ptrInt64 delta.ifHCOutOctets
  let c ← ptrInt64 delta.ifInDiscards
  let d ← ptrInt64 delta.ifOutDiscards
  let e ← ptrInt64 delta.ifInErrors
  let f ← ptrInt64 delta.ifOutErrors
  Run.done ⟨a, b, c, d, e, f⟩

/-- Lines 238 and 239 of `UpdateData`, for one direction:
`(float64(d) * 8 * 100) / (float64(speed) * float64(t) * 1000000)` where `d`
and `speed` are the `Int64()` of the delta and of `ifSpeed`. -/
def rate (d speed t : Int) : F64 :=
  F64.div (F64.mul (F64.mul (F64.ofInt d) (F64.ofInt 8)) (F64.ofInt 100))
    (F64.mul (F64.mul (F64.ofInt speed) (F64.ofInt t)) (F64.ofInt 1000000))

/-- Lines 205 to 243 of `UpdateData`: what happens once the sample `stats`
has been decoded. -/
def commit (b : Dashboard) (t : Int) (stats : ifStats) : Run (Dashboard × Option GoError) := do
  let delta ← computeDelta b.ifStats stats
  let b1 := { b with ifStats := some stats }
  let text ← rawData delta
  let b2 := { b1 with Par2 := some text }
  let dIn ← ptrInt64 delta.ifHCInOctets
  let speed ← ptrInt64 b2.ifSpeed
  let rxRate := rate dIn speed t
  let dOut ← ptrInt64 delta.ifHCOutOctets
  let txRate := rate dOut speed t
  let b3 := { b2 with ChartRx := append b2.ChartRx rxRate }
  let b4 := { b3 with ChartTx := append b3.ChartTx txRate }
  Run.done (b4, none)

/-- Lines 175 to 203 of `UpdateData`: the request for the six counters. The
result is the error the method returns at line 191 or 194, or the decoded
sample `stats`. -/
def fetch (env : Env) (ifIndex : Int) : Run (Except GoError ifStats) :=
  match counterOids env ifIndex with
  | Run.panic => Run.panic
  | Run.done oids =>
    match env.GetRequest oids with
    | Except.error err => Run.done (Except.error (GoError.transport err))
    | Except.ok pdu =>
      if pdu.ErrorStatus ≠ NoError then
        Run.done (Except.error (GoError.failed pdu.ErrorStatus pdu.ErrorIndex))
      else
        match decodeStats pdu oids with
        | Run.panic => Run.panic
        | Run.done stats => Run.done (Except.ok stats)

/-- The method `Dashboard.UpdateData(t)`: the dashboard after the call and
the returned error. -/
def UpdateData (env : Env) (b : Dashboard) (t : Int) : Run (Dashboard × Option GoError) :=
  match fetch env b.ifIndex with
  | Run.panic => Run.panic
  | Run.done (Except.error err) => Run.done (b, some err)
  | Run.done (Except.ok stats) => commit b t stats

/-! ## The program: `main` -/

/-- The sampling done by `main`: one `UpdateData(interval)` per element of
`envs` (the state of the collaborators at each call), the returned error
discarded, as at lines 314 and 321. -/
def runTicks (interval : Int) : Dashboard → List Env → Run Dashboard
  | b, [] => Run.done b
  | b, env :: rest =>
    match UpdateData env b interval with
    | Run.panic => Run.panic
    | Run.done (b1, _) => runTicks interval b1 rest

/-- Whether every one of the ticks of `runTicks` returns a nil error. -/
def allSucceed (interval : Int) : Dashboard → List Env → Bool
  | _, [] => true
  | b, env :: rest =>
    match UpdateData env b interval with
    | Run.done (b1, none) => allSucceed interval b1 rest
    | _ => false

/-! ## Vocabulary of the statements -/

/-- The six counters of a sample. -/
inductive Counter where
  | ifHCInOctets
  | ifInDiscards
  | ifInErrors
  | ifHCOutOctets
  | ifOutDiscards
  | ifOutErrors
deriving DecidableEq, Repr

/-- The field of an `ifStats` that holds a counter. -/
def ifStats.get (s : ifStats) : Counter → Option Int
  | Counter.ifHCInOctets => s.ifHCInOctets
  | Counter.ifInDiscards => s.ifInDiscards
  | Counter.ifInErrors => s.ifInErrors
  | Counter.ifHCOutOctets => s.ifHCOutOctets
  | Counter.ifOutDiscards => s.ifOutDiscards
  | Counter.ifOutErrors => s.ifOutErrors

/-- The value `Par2` shows for a counter. -/
def Par2Text.get (p : Par2Text) : Counter → Int
  | Counter.ifHCInOctets => p.ifHCInOctets
  | Counter.ifInDiscards => p.ifInDiscards
  | Counter.ifInErrors => p.ifInErrors
  | Counter.ifHCOutOctets => p.ifHCOutOctets
  | Counter.ifOutDiscards => p.ifOutDiscards
  | Counter.ifOutErrors => p.ifOutErrors

/-- The `ifStats` whose six counters are decoded, with the values `v`. -/
def sampleOf (v : Counter → Int) : ifStats :=
  ⟨some (v Counter.ifHCInOctets), some (v Counter.ifInDiscards), some (v Counter.ifInErrors),
   some (v Counter.ifHCOutOctets), some (v Counter.ifOutDiscards), some (v Counter.ifOutErrors)⟩

/-- A counter sample of the data model: every value lies in `[0, 2^64 - 1]`. -/
def InRange (v : Counter → Int) : Prop := ∀ c, 0 ≤ v c ∧ v c ≤ 2 ^ 64 - 1

/-- The token and an interface name match: the upper-cased name contains the
upper-cased token as a contiguous substring. -/
def Matches (env : Env) (name : String) (varBind : VarBind) : Prop :=
  (env.ToUpper name).data <:+: (env.ToUpper varBind.Variable.Str).data

/-! ## Example devices -/

/-- Dotted-decimal parsing, the `MustNewOid` of the example devices. -/
def parseDottedAux : List Char → Option Nat → List Int → Option (List Int)
  | [], some n, acc => some (acc ++ [(n : Int)])
  | [], none, _ => none
  | c :: cs, cur, acc =>
    if c = '.' then
      match cur with
      | some n => parseDottedAux cs none (acc ++ [(n : Int)])
      | none => none
    else if c.isDigit then parseDottedAux cs (some (10 * cur.getD 0 + (c.toNat - 48))) acc
    else none

/-- Dotted-decimal parsing of a string such as `1.3.6.1`. -/
def parseDotted (s : String) : Option Oid := parseDottedAux s.data none []

/-- The variable a device returns, under status NoError, for an object it
does not hold: `String()` is `str`, `BigInt()` fails. -/
def noSuchInstance (str : String) : Variable := ⟨str, none⟩

/-- The answer of an example device to a get request for `oids`: status
NoError and, for each requested object, its variable in `mib`, or
`noSuchInstance absent` when the device does not hold the object. -/
def getPdu (mib : List VarBind) (absent : String) (oids : List Oid) : Pdu :=
  { ErrorStatus := NoError, ErrorIndex := 0,
    MatchOid := fun oid =>
      if oid ∈ oids then
        some ((mib.find? (fun vb => vb.Oid = oid)).getD ⟨oid, noSuchInstance absent⟩)
      else none,
    MatchBaseOids := fun _ => [] }

/-- The answer of an example device to a walk: status NoError and the
objects of `mib` under the base OID, in the order of `mib`. -/
def walkPdu (mib : List VarBind) : Pdu :=
  { ErrorStatus := NoError, ErrorIndex := 0,
    MatchOid := fun _ => none,
    MatchBaseOids := fun base => mib.filter (fun vb => base.isPrefixOf vb.Oid) }

/-- An example device whose objects are `mib`: every request is answered
with status NoError. Letters are upper-cased as in ASCII. -/
def device (mib : List VarBind) (absent : String) : Env :=
  { MustNewOid := parseDotted,
    GetRequest := fun oids => Except.ok (getPdu mib absent oids),
    GetBulkWalk := fun _ _ _ => Except.ok (walkPdu mib),
    ToUpper := fun s => String.mk (s.data.map Char.toUpper) }

/-- An example device that answers no request: transport error `timeout`. -/
def deadDevice : Env :=
  { MustNewOid := parseDotted,
    GetRequest := fun _ => Except.error "timeout",
    GetBulkWalk := fun _ _ _ => Except.error "timeout",
    ToUpper := fun s => String.mk (s.data.map Char.toUpper) }

/-- An example device that answers every request with error status 5. -/
def refusingDevice : Env :=
  { MustNewOid := parseDotted,
    GetRequest := fun _ => Except.ok ⟨5, 1, fun _ => none, fun _ => []⟩,
    GetBulkWalk := fun _ _ _ => Except.ok ⟨5, 1, fun _ => none, fun _ => []⟩,
    ToUpper := fun s => String.mk (s.data.map Char.toUpper) }

/-- A numeric object of an example device. -/
def numObj (oid : Oid) (v : Int) : VarBind := ⟨oid, ⟨toString v, some v⟩⟩

/-- A text object of an example device. -/
def textObj (oid : Oid) (s : String) : VarBind := ⟨oid, ⟨s, none⟩⟩

/-- The objects of an example interface: its name, alias, speed and the six
counters `v`, next to the system name. -/
def ifMib (ifIndex : Int) (ifName : String) (speed : Int) (v : Counter → Int) : List VarBind :=
  [ textObj [1, 3, 6, 1, 2, 1, 1, 5, 0] "router",
    textObj [1, 3, 6, 1, 2, 1, 31, 1, 1, 1, 1, ifIndex] ifName,
    textObj [1, 3, 6, 1, 2, 1, 31, 1, 1, 1, 18, ifIndex] "uplink",
    numObj [1, 3, 6, 1, 2, 1, 31, 1, 1, 1, 15, ifIndex] speed,
    numObj [1, 3, 6, 1, 2, 1, 31, 1, 1, 1, 6, ifIndex] (v Counter.ifHCInOctets),
    numObj [1, 3, 6, 1, 2, 1, 2, 2, 1, 13, ifIndex] (v Counter.ifInDiscards),
    numObj [1, 3, 6, 1, 2, 1, 2, 2, 1, 14, ifIndex] (v Counter.ifInErrors),
    numObj [1, 3, 6, 1, 2, 1, 31, 1, 1, 1, 10, ifIndex] (v Counter.ifHCOutOctets),
    numObj [1, 3, 6, 1, 2, 1, 2, 2, 1, 19, ifIndex] (v Counter.ifOutDiscards),
    numObj [1, 3, 6, 1, 2, 1, 2, 2, 1, 20, ifIndex] (v Counter.ifOutErrors) ]

/-- Counter values: `x` inbound octets, `y` outbound octets, the rest zero. -/
def octets (x y : Int) : Counter → Int
  | Counter.ifHCInOctets => x
  | Counter.ifHCOutOctets => y
  | _ => 0

/-- A dashboard of interface 7 with link speed `speed` and stored sample
`prev`, as `NewDashboard` and earlier ticks leave it. -/
def dashboard7 (speed : Int) (prev : Option ifStats) : Dashboard :=
  { emptyDashboard with ifIndex := 7, ifSpeed := some speed, ifStats := prev }

/-! ## Vocabulary of the lemmas -/

/-- The float is finite, has sign `s` and magnitude `v`. -/
def F64.HasVal (x : F64) (s : Bool) (v : ℚ) : Prop :=
  ∃ m e, x = F64.finite s m e ∧ (m : ℚ) * 2 ^ e = v

/-- The dashboard a tick leaves when its delta is `d` and the link speed is
`speed`: new stored sample, new `Par2`, one more value in each series. -/
def committed (b : Dashboard) (t : Int) (stats : ifStats) (d : Counter → Int) (speed : Int) :
    Dashboard :=
  { b with
    ifStats := some stats,
    Par2 := some ⟨Int64 (d Counter.ifHCInOctets), Int64 (d Counter.ifHCOutOctets),
      Int64 (d Counter.ifInDiscards), Int64 (d Counter.ifOutDiscards),
      Int64 (d Counter.ifInErrors), Int64 (d Counter.ifOutErrors)⟩,
    ChartRx := append b.ChartRx (rate (Int64 (d Counter.ifHCInOctets)) (Int64 speed) t),
    ChartTx := append b.ChartTx (rate (Int64 (d Counter.ifHCOutOctets)) (Int64 speed) t) }

/-- The text of `Par2` after a tick whose delta is `d`. -/
def shownOf (d : Counter → Int) : Par2Text :=
  ⟨Int64 (d Counter.ifHCInOctets), Int64 (d Counter.ifHCOutOctets),
    Int64 (d Counter.ifInDiscards), Int64 (d Counter.ifOutDiscards),
    Int64 (d Counter.ifInErrors), Int64 (d Counter.ifOutErrors)⟩

/-! ## Lemmas: the panic monad and big integers -/

@[simp] theorem Run.done_bind {α β : Type} (a : α) (f : α → Run β) :
    (Run.done a >>= f) = f a := rfl

@[simp] theorem Run.panic_bind {α β : Type} (f : α → Run β) :
    ((Run.panic : Run α) >>= f) = Run.panic := rfl

theorem Run.bind_eq_done {α β : Type} {x : Run α} {f : α → Run β} {r : β}
    (h : (x >>= f) = Run.done r) : ∃ a, x = Run.done a ∧ f a = Run.done r := by
  cases x with
  | done a => exact ⟨a, rfl, h⟩
  | panic => simp at h

theorem Int64_eq_self (x : Int) (hlo : -(2 ^ 63) ≤ x) (hhi : x < 2 ^ 63) : Int64 x = x := by
  unfold Int64 toInt64 negInt64
  simp only []
  split_ifs <;> omega

theorem Int64_high (x : Int) (hlo : 2 ^ 63 ≤ x) (hhi : x < 2 ^ 64) : Int64 x = x - 2 ^ 64 := by
  unfold Int64 toInt64 negInt64
  simp only []
  split_ifs <;> omega

theorem Int64_low (x : Int) (hlo : -(2 ^ 64) < x) (hhi : x < -(2 ^ 63)) :
    Int64 x = x + 2 ^ 64 := by
  unfold Int64 toInt64 negInt64
  simp only []
  split_ifs <;> omega

theorem get_sampleOf (v : Counter → Int) (c : Counter) : (sampleOf v).get c = some (v c) := by
  cases c <;> rfl

theorem computeDelta_none (stats : ifStats) :
    computeDelta none stats = Run.done (sampleOf (fun _ => 0)) := rfl

theorem computeDelta_some (prev cur : Counter → Int) :
    computeDelta (some (sampleOf prev)) (sampleOf cur)
      = Run.done (sampleOf (fun c => cur c - prev c)) := rfl

theorem rawData_sampleOf (d : Counter → Int) :
    rawData (sampleOf d)
      = Run.done ⟨Int64 (d Counter.ifHCInOctets), Int64 (d Counter.ifHCOutOctets),
          Int64 (d Counter.ifInDiscards), Int64 (d Counter.ifOutDiscards),
          Int64 (d Counter.ifInErrors), Int64 (d Counter.ifOutErrors)⟩ := rfl

theorem commit_of_delta (b : Dashboard) (t : Int) (stats : ifStats) (d : Counter → Int)
    (speed : Int) (hd : computeDelta b.ifStats stats = Run.done (sampleOf d))
    (hs : b.ifSpeed = some speed) :
    commit b t stats = Run.done (committed b t stats d speed, none) := by
  have hsp : ptrInt64 b.ifSpeed = Run.done (Int64 speed) := by rw [hs]; rfl
  have hin : ptrInt64 (sampleOf d).ifHCInOctets = Run.done (Int64 (d Counter.ifHCInOctets)) := rfl
  have hout : ptrInt64 (sampleOf d).ifHCOutOctets
      = Run.done (Int64 (d Counter.ifHCOutOctets)) := rfl
  unfold commit
  rw [hd]
  simp only [Run.done_bind, rawData_sampleOf, hsp, hin, hout]
  rfl

theorem commit_cases (b : Dashboard) (t : Int) (stats : ifStats)
    (r : Dashboard × Option GoError) (h : commit b t stats = Run.done r) :
    ∃ delta text dIn dOut speed,
      computeDelta b.ifStats stats = Run.done delta ∧ rawData delta = Run.done text ∧
      ptrInt64 delta.ifHCInOctets = Run.done dIn ∧ ptrInt64 delta.ifHCOutOctets = Run.done dOut ∧
      b.ifSpeed = some speed ∧
      r = ({ b with
              ifStats := some stats, Par2 := some text,
              ChartRx := append b.ChartRx (rate dIn (Int64 speed) t),
              ChartTx := append b.ChartTx (rate dOut (Int64 speed) t) }, none) := by
  unfold commit at h
  cases hd : computeDelta b.ifStats stats with
  | panic => rw [hd] at h; simp at h
  | done delta =>
    rw [hd] at h
    simp only [Run.done_bind] at h
    cases ht : rawData delta with
    | panic => rw [ht] at h; simp at h
    | done text =>
      rw [ht] at h
      simp only [Run.done_bind] at h
      cases hi : ptrInt64 delta.ifHCInOctets with
      | panic => rw [hi] at h; simp at h
      | done dIn =>
        rw [hi] at h
        simp only [Run.done_bind] at h
        cases hs : b.ifSpeed with
        | none => simp [hs, ptrInt64] at h
        | some speed =>
          simp only [hs, ptrInt64, Run.done_bind] at h
          cases ho : delta.ifHCOutOctets with
          | none => simp [ho] at h
          | some dOut =>
            simp only [ho, Run.done_bind, Run.done.injEq] at h
            refine ⟨delta, text, dIn, Int64 dOut, speed, rfl, ht, hi, ?_, rfl, h.symm⟩
            simp [ptrInt64, ho]

theorem UpdateData_of_fetch (env : Env) (b : Dashboard) (t : Int) (stats : ifStats)
    (h : fetch env b.ifIndex = Run.done (Except.ok stats)) :
    UpdateData env b t = commit b t stats := by
  unfold UpdateData
  rw [h]

theorem UpdateData_of_fetch_error (env : Env) (b : Dashboard) (t : Int) (err : GoError)
    (h : fetch env b.ifIndex = Run.done (Except.error err)) :
    UpdateData env b t = Run.done (b, some err) := by
  unfold UpdateData
  rw [h]

theorem elems_append {α : Type} (s : Slice α) (x : α) : (append s x).elems = s.elems ++ [x] := by
  unfold append
  split <;> rfl

/-- A tick that decodes `cur` while `prev` is stored. -/
theorem tick_step (env : Env) (b : Dashboard) (t speed : Int) (prev cur : Counter → Int)
    (hp : b.ifStats = some (sampleOf prev)) (hs : b.ifSpeed = some speed)
    (hf : fetch env b.ifIndex = Run.done (Except.ok (sampleOf cur))) :
    UpdateData env b t
      = Run.done (committed b t (sampleOf cur) (fun c => cur c - prev c) speed, none) := by
  rw [UpdateData_of_fetch env b t _ hf]
  exact commit_of_delta b t _ _ speed (by rw [hp]; rfl) hs

/-- A tick that decodes `stats` while no sample is stored. -/
theorem tick_first (env : Env) (b : Dashboard) (t speed : Int) (stats : ifStats)
    (hp : b.ifStats = none) (hs : b.ifSpeed = some speed)
    (hf : fetch env b.ifIndex = Run.done (Except.ok stats)) :
    UpdateData env b t = Run.done (committed b t stats (fun _ => 0) speed, none) := by
  rw [UpdateData_of_fetch env b t _ hf]
  exact commit_of_delta b t _ _ speed (by rw [hp]; rfl) hs

/-- What a tick that decodes `stats` and returns leaves behind. -/
theorem tick_inv (env : Env) (b b1 : Dashboard) (t : Int) (stats : ifStats)
    (e : Option GoError)
    (hf : fetch env b.ifIndex = Run.done (Except.ok stats))
    (hu : UpdateData env b t = Run.done (b1, e)) :
    e = none ∧ b1.ifStats = some stats ∧ b1.ifIndex = b.ifIndex ∧ b1.ifSpeed = b.ifSpeed ∧
      ∃ speed, b.ifSpeed = some speed := by
  rw [UpdateData_of_fetch env b t _ hf] at hu
  obtain ⟨delta, text, dIn, dOut, speed, -, -, -, -, hs, hr⟩ := commit_cases b t stats _ hu
  simp only [Prod.mk.injEq] at hr
  obtain ⟨hb, he⟩ := hr
  subst hb
  exact ⟨he, rfl, rfl, rfl, speed, hs⟩

/-! ## Lemmas: rounding to binary64 -/

namespace F64

theorem log2Fuel_spec : ∀ (fuel n : Nat), n ≤ fuel → 0 < n →
    2 ^ log2Fuel fuel n ≤ n ∧ n < 2 ^ (log2Fuel fuel n + 1) := by
  intro fuel
  induction fuel with
  | zero => intro n h1 h2; omega
  | succ k ih =>
    intro n h1 h2
    unfold log2Fuel
    split_ifs with h
    · constructor <;> simp <;> omega
    · have h3 := ih (n / 2) (by omega) (by omega)
      obtain ⟨h4, h5⟩ := h3
      constructor
      · rw [pow_succ]; omega
      · rw [pow_succ]; omega

theorem log2_spec (n : Nat) (h : 0 < n) : 2 ^ log2 n ≤ n ∧ n < 2 ^ (log2 n + 1) :=
  log2Fuel_spec n n le_rfl h

theorem zpow_split (k : Int) : (2 : ℚ) ^ k = (2 : ℚ) ^ k.toNat / (2 : ℚ) ^ (-k).toNat := by
  rcases le_total 0 k with h | h
  · have h1 : (-k).toNat = 0 := by omega
    rw [h1, pow_zero, div_one]
    conv_lhs => rw [← Int.toNat_of_nonneg h]
    rw [zpow_natCast]
  · have h1 : k.toNat = 0 := by omega
    rw [h1, pow_zero, one_div, ← zpow_natCast, Int.toNat_of_nonneg (by omega), ← zpow_neg, neg_neg]

theorem floorLog2_le (n d : Nat) (hn : 0 < n) (hd : 0 < d) :
    (2 : ℚ) ^ floorLog2 n d ≤ (n : ℚ) / d := by
  have hdq : (0 : ℚ) < d := by exact_mod_cast hd
  unfold floorLog2
  simp only []
  split_ifs with h
  · rw [zpow_split, div_le_div_iff₀ (by positivity) hdq]
    have : ((d * 2 ^ ((log2 n : Int) - (log2 d : Int)).toNat : Nat) : ℚ)
        ≤ ((n * 2 ^ (-((log2 n : Int) - (log2 d : Int))).toNat : Nat) : ℚ) := by exact_mod_cast h
    push_cast at this
    linarith
  · obtain ⟨h1, -⟩ := log2_spec n hn
    obtain ⟨-, h2⟩ := log2_spec d hd
    have h1q : (2 : ℚ) ^ (log2 n : Int) ≤ n := by
      rw [zpow_natCast]; exact_mod_cast h1
    have h2q : (d : ℚ) ≤ (2 : ℚ) ^ ((log2 d : Int) + 1) := by
      have : (d : ℚ) < 2 ^ (log2 d + 1) := by exact_mod_cast h2
      have e : ((log2 d : Int) + 1) = ((log2 d + 1 : Nat) : Int) := by push_cast; ring
      rw [e, zpow_natCast]; exact le_of_lt this
    have e : (2 : ℚ) ^ ((log2 n : Int) - (log2 d : Int) - 1)
        = (2 : ℚ) ^ (log2 n : Int) / (2 : ℚ) ^ ((log2 d : Int) + 1) := by
      rw [← zpow_sub₀ (by norm_num)]; congr 1; ring
    rw [e]
    exact div_le_div₀ (by exact_mod_cast hn.le) h1q hdq h2q


theorem roundHalfEven_ge (N D K : Nat) (hD : 0 < D) (h : K * D ≤ N) : K ≤ roundHalfEven N D := by
  have hq : K ≤ N / D := (Nat.le_div_iff_mul_le hD).2 h
  unfold roundHalfEven
  simp only []
  split_ifs <;> omega

theorem roundHalfEven_le (N D K : Nat) (hD : 0 < D) (h : N ≤ K * D) : roundHalfEven N D ≤ K := by
  have hq : N / D ≤ K := by
    calc N / D ≤ K * D / D := Nat.div_le_div_right h
      _ = K := Nat.mul_div_cancel K hD
  have hdm := Nat.div_add_mod N D
  have hr : 0 < N % D → N / D < K := by
    intro hr
    by_contra hcon
    have : K = N / D := by omega
    rw [this] at h
    have : D * (N / D) = N / D * D := Nat.mul_comm _ _
    omega
  unfold roundHalfEven
  simp only []
  split_ifs <;> omega

theorem roundHalfEven_err (N D : Nat) (hD : 0 < D) :
    |(roundHalfEven N D : ℚ) - (N : ℚ) / D| ≤ 1 / 2 := by
  have hDq : (0 : ℚ) < D := by exact_mod_cast hD
  have hdm : (N : ℚ) = D * (N / D : Nat) + (N % D : Nat) := by
    exact_mod_cast (Nat.div_add_mod N D).symm
  have hrlt : ((N % D : Nat) : ℚ) < D := by exact_mod_cast Nat.mod_lt N hD
  have hr0 : (0 : ℚ) ≤ ((N % D : Nat) : ℚ) := by positivity
  have key : ∀ m : ℚ, |2 * (m * D - N)| ≤ D → |m - (N : ℚ) / D| ≤ 1 / 2 := by
    intro m hm
    have e : m - (N : ℚ) / D = (2 * (m * D - N)) / (2 * D) := by
      field_simp; ring
    rw [e, abs_div, abs_of_pos (by positivity : (0 : ℚ) < 2 * D), div_le_iff₀ (by positivity)]
    linarith
  apply key
  unfold roundHalfEven
  simp only []
  split_ifs with h1 h2 h3
  · have : (2 * ((N % D : Nat) : ℚ)) < D := by exact_mod_cast h1
    rw [abs_le]; constructor <;> nlinarith
  · have : (D : ℚ) < (2 * ((N % D : Nat) : ℚ)) := by exact_mod_cast h2
    push_cast
    rw [abs_le]; constructor <;> nlinarith
  · have : (2 * ((N % D : Nat) : ℚ)) = D := by
      have : 2 * (N % D) = D := by omega
      exact_mod_cast this
    rw [abs_le]; constructor <;> nlinarith
  · have : (2 * ((N % D : Nat) : ℚ)) = D := by
      have : 2 * (N % D) = D := by omega
      exact_mod_cast this
    push_cast
    rw [abs_le]; constructor <;> nlinarith


theorem roundHalfEven_ge_q (N D K : Nat) (hD : 0 < D) (h : (K : ℚ) ≤ (N : ℚ) / D) :
    K ≤ roundHalfEven N D := by
  apply roundHalfEven_ge N D K hD
  have hDq : (0 : ℚ) < D := by exact_mod_cast hD
  rw [le_div_iff₀ hDq] at h
  exact_mod_cast h

theorem roundHalfEven_le_q (N D K : Nat) (hD : 0 < D) (h : (N : ℚ) / D ≤ K) :
    roundHalfEven N D ≤ K := by
  apply roundHalfEven_le N D K hD
  have hDq : (0 : ℚ) < D := by exact_mod_cast hD
  rw [div_le_iff₀ hDq] at h
  exact_mod_cast h

theorem two_pow_toNat (k : Int) (hk : 0 ≤ k) : ((2 ^ k.toNat : Nat) : ℚ) = (2 : ℚ) ^ k := by
  push_cast
  rw [← zpow_natCast, Int.toNat_of_nonneg hk]

theorem roundRat_spec (s : Bool) (n d : Nat) (hn : 0 < n) (hd : 0 < d) (lo hi : Int)
    (hlo : -1074 ≤ lo) (hhi : hi ≤ 1023)
    (h1 : (2 : ℚ) ^ lo ≤ (n : ℚ) / d) (h2 : (n : ℚ) / d ≤ (2 : ℚ) ^ hi) :
    ∃ m e, roundRat s n d = finite s m e ∧
      (2 : ℚ) ^ lo ≤ (m : ℚ) * 2 ^ e ∧ (m : ℚ) * 2 ^ e ≤ 2 ^ hi ∧
      (-1022 ≤ lo → |(m : ℚ) * 2 ^ e - (n : ℚ) / d| ≤ (n : ℚ) / d * 2 ^ (-53 : Int)) ∧
      (∀ K : Nat, (n : ℚ) / d = K → K < 2 ^ 53 → (m : ℚ) * 2 ^ e = K) := by
  have h12 : (1 : ℚ) < 2 := by norm_num
  have hfl := floorLog2_le n d hn hd
  have hflhi : floorLog2 n d ≤ hi := (zpow_le_zpow_iff_right₀ h12).1 (hfl.trans h2)
  have hlohi : lo ≤ hi := (zpow_le_zpow_iff_right₀ h12).1 (h1.trans h2)
  obtain ⟨p, hp⟩ : ∃ p, p = max (floorLog2 n d - 52) (-1074) := ⟨_, rfl⟩
  have hp3 : p = floorLog2 n d - 52 ∨ p = -1074 := by omega
  have hp1 : floorLog2 n d - 52 ≤ p := by omega
  have hp2 : -1074 ≤ p := by omega
  have h2p : (0 : ℚ) < 2 ^ p := by positivity
  have hpx : (2 : ℚ) ^ p ≤ (n : ℚ) / d := by
    rcases hp3 with h | h
    · exact le_trans (zpow_le_zpow_right₀ h12.le (by omega)) hfl
    · exact le_trans (zpow_le_zpow_right₀ h12.le (by omega)) h1
  have hD : 0 < d * 2 ^ p.toNat := by positivity
  have hy : ((n * 2 ^ (-p).toNat : Nat) : ℚ) / ((d * 2 ^ p.toNat : Nat) : ℚ)
      = (n : ℚ) / d / 2 ^ p := by
    have hdq : (d : ℚ) ≠ 0 := by exact_mod_cast hd.ne'
    push_cast
    rw [zpow_split p]
    field_simp
  obtain ⟨m, hm⟩ : ∃ m, m = roundHalfEven (n * 2 ^ (-p).toNat) (d * 2 ^ p.toNat) := ⟨_, rfl⟩
  -- lower bound
  have hlow : (2 : ℚ) ^ lo ≤ (m : ℚ) * 2 ^ p := by
    have hK : 2 ^ (lo - p).toNat ≤ m := by
      rw [hm]
      apply roundHalfEven_ge_q _ _ _ hD
      rw [hy, le_div_iff₀ h2p]
      rcases le_total p lo with h | h
      · rw [two_pow_toNat _ (by omega), ← zpow_add₀ (by norm_num)]
        simpa using h1
      · have : (lo - p).toNat = 0 := by omega
        rw [this]
        simpa using hpx
    have hKq : ((2 ^ (lo - p).toNat : Nat) : ℚ) ≤ (m : ℚ) := by exact_mod_cast hK
    rcases le_total p lo with h | h
    · rw [two_pow_toNat _ (by omega)] at hKq
      calc (2 : ℚ) ^ lo = 2 ^ (lo - p) * 2 ^ p := by
            rw [← zpow_add₀ (by norm_num)]; congr 1; ring
        _ ≤ (m : ℚ) * 2 ^ p := by gcongr
    · have : (lo - p).toNat = 0 := by omega
      rw [this] at hKq
      calc (2 : ℚ) ^ lo ≤ 2 ^ p := zpow_le_zpow_right₀ h12.le h
        _ = 1 * 2 ^ p := by ring
        _ ≤ (m : ℚ) * 2 ^ p := by
            have : (1 : ℚ) ≤ m := by simpa using hKq
            gcongr
  -- upper bound
  have hphi : p ≤ hi := by omega
  have hupp : (m : ℚ) * 2 ^ p ≤ 2 ^ hi := by
    have hK : m ≤ 2 ^ (hi - p).toNat := by
      rw [hm]
      apply roundHalfEven_le_q _ _ _ hD
      rw [hy, div_le_iff₀ h2p, two_pow_toNat _ (by omega), ← zpow_add₀ (by norm_num)]
      simpa using h2
    have hKq : (m : ℚ) ≤ ((2 ^ (hi - p).toNat : Nat) : ℚ) := by exact_mod_cast hK
    rw [two_pow_toNat _ (by omega)] at hKq
    calc (m : ℚ) * 2 ^ p ≤ 2 ^ (hi - p) * 2 ^ p := by gcongr
      _ = 2 ^ hi := by rw [← zpow_add₀ (by norm_num)]; congr 1; ring
  -- shape of the result
  have hres : ∃ m1 e1, roundRat s n d = finite s m1 e1 ∧ (m1 : ℚ) * 2 ^ e1 = (m : ℚ) * 2 ^ p := by
    unfold roundRat
    rw [if_neg hn.ne']
    simp only []
    rw [← hp, ← hm]
    by_cases h53 : m = 2 ^ 53
    · rw [if_pos h53]
      have hle : (2 : ℚ) ^ (53 + p) ≤ 2 ^ hi := by
        rw [zpow_add₀ (by norm_num)]
        have : ((m : ℚ)) = 2 ^ (53 : Int) := by rw [h53]; norm_num
        rw [← this]; exact hupp
      have : 53 + p ≤ hi := (zpow_le_zpow_iff_right₀ h12).1 hle
      rw [if_neg (by omega)]
      refine ⟨_, _, rfl, ?_⟩
      rw [h53, zpow_add₀ (by norm_num)]
      push_cast
      ring
    · rw [if_neg h53, if_neg (by omega)]
      exact ⟨_, _, rfl, rfl⟩
  obtain ⟨m1, e1, hr, hv⟩ := hres
  refine ⟨m1, e1, hr, by rw [hv]; exact hlow, by rw [hv]; exact hupp, ?_, ?_⟩
  · intro hlo2
    rw [hv]
    have herr := roundHalfEven_err (n * 2 ^ (-p).toNat) (d * 2 ^ p.toNat) hD
    rw [← hm, hy] at herr
    have hbig : (2 : ℚ) ^ (p + 52) ≤ (n : ℚ) / d := by
      rcases hp3 with h | h
      · rw [h]; simpa using hfl
      · exact le_trans (zpow_le_zpow_right₀ h12.le (by omega)) h1
    have e1 : (m : ℚ) * 2 ^ p - (n : ℚ) / d = ((m : ℚ) - (n : ℚ) / d / 2 ^ p) * 2 ^ p := by
      field_simp
      ring
    rw [e1, abs_mul, abs_of_pos h2p]
    calc |(m : ℚ) - (n : ℚ) / d / 2 ^ p| * 2 ^ p ≤ 1 / 2 * 2 ^ p := by gcongr
      _ = 2 ^ (p + 52) * 2 ^ (-53 : Int) := by
          rw [← zpow_add₀ (by norm_num)]
          have : p + 52 + -53 = p - 1 := by ring
          rw [this, zpow_sub₀ (by norm_num)]
          simp
          ring
      _ ≤ (n : ℚ) / d * 2 ^ (-53 : Int) := by gcongr
  · intro K hK hK53
    rw [hv]
    have hflK : floorLog2 n d < 53 := by
      have : (2 : ℚ) ^ floorLog2 n d < 2 ^ (53 : Int) := by
        calc (2 : ℚ) ^ floorLog2 n d ≤ K := by rw [← hK]; exact hfl
          _ < (2 : ℚ) ^ (53 : Nat) := by exact_mod_cast hK53
          _ = 2 ^ (53 : Int) := by norm_num
      exact (zpow_lt_zpow_iff_right₀ h12).1 this
    have hp0 : p ≤ 0 := by omega
    have hyK : (n : ℚ) / d / 2 ^ p = ((K * 2 ^ (-p).toNat : Nat) : ℚ) := by
      push_cast
      rw [hK, ← zpow_natCast, Int.toNat_of_nonneg (by omega), zpow_neg]
      field_simp
    have hmK : m = K * 2 ^ (-p).toNat := by
      apply le_antisymm
      · rw [hm]; apply roundHalfEven_le_q _ _ _ hD; rw [hy, hyK]
      · rw [hm]; apply roundHalfEven_ge_q _ _ _ hD; rw [hy, hyK]
    rw [hmK]
    push_cast
    rw [← zpow_natCast, Int.toNat_of_nonneg (by omega), mul_assoc, ← zpow_add₀ (by norm_num)]
    simp


theorem HasVal.pos_mantissa {x : F64} {s : Bool} {v : ℚ} (h : HasVal x s v) (hv : 0 < v) :
    ∃ m e, x = finite s m e ∧ 0 < m := by
  obtain ⟨m, e, hx, hm⟩ := h
  refine ⟨m, e, hx, ?_⟩
  rcases Nat.eq_zero_or_pos m with h0 | h0
  · rw [h0] at hm; simp at hm; rw [← hm] at hv; exact absurd hv (lt_irrefl _)
  · exact h0

theorem ofInt_spec (i : Int) (lo hi : Int) (hlo : 0 ≤ lo) (hhi : hi ≤ 1023)
    (h1 : (2 : ℚ) ^ lo ≤ (i.natAbs : ℚ)) (h2 : (i.natAbs : ℚ) ≤ (2 : ℚ) ^ hi) :
    ∃ v, HasVal (ofInt i) (decide (i < 0)) v ∧ (2 : ℚ) ^ lo ≤ v ∧ v ≤ 2 ^ hi ∧
      (i.natAbs < 2 ^ 53 → v = i.natAbs) := by
  have hpos : 0 < i.natAbs := by
    have : (0 : ℚ) < (i.natAbs : ℚ) := lt_of_lt_of_le (by positivity) h1
    exact_mod_cast this
  obtain ⟨m, e, hr, hl, hu, -, hex⟩ := roundRat_spec (decide (i < 0)) i.natAbs 1 hpos
    Nat.one_pos lo hi (by omega) hhi (by simpa using h1) (by simpa using h2)
  exact ⟨_, ⟨m, e, hr, rfl⟩, hl, hu, fun h => hex i.natAbs (by simp) h⟩

theorem mul_spec (a b : F64) (s s' : Bool) (va vb : ℚ) (ha : HasVal a s va) (hb : HasVal b s' vb)
    (hva : 0 < va) (hvb : 0 < vb) (lo hi : Int) (hlo : -1074 ≤ lo) (hhi : hi ≤ 1023)
    (h1 : (2 : ℚ) ^ lo ≤ va * vb) (h2 : va * vb ≤ (2 : ℚ) ^ hi) :
    ∃ v, HasVal (mul a b) (xor s s') v ∧ (2 : ℚ) ^ lo ≤ v ∧ v ≤ 2 ^ hi ∧
      (-1022 ≤ lo → |v - va * vb| ≤ va * vb * 2 ^ (-53 : Int)) ∧
      (∀ K : Nat, va * vb = K → K < 2 ^ 53 → v = K) := by
  obtain ⟨m, e, rfl, hm⟩ := ha
  obtain ⟨m', e', rfl, hm'⟩ := hb
  have hx : (((m * m' * 2 ^ (e + e').toNat : Nat) : ℚ)) / ((2 ^ (-(e + e')).toNat : Nat) : ℚ)
      = va * vb := by
    have h3 := zpow_split (e + e')
    rw [zpow_add₀ (by norm_num : (2 : ℚ) ≠ 0)] at h3
    push_cast
    rw [← hm, ← hm', mul_div_assoc, ← h3]
    ring
  have hn : 0 < m * m' * 2 ^ (e + e').toNat := by
    have h3 : (0 : ℚ) < ((m * m' * 2 ^ (e + e').toNat : Nat) : ℚ) / ((2 ^ (-(e + e')).toNat : Nat) : ℚ) := by
      rw [hx]; positivity
    rcases Nat.eq_zero_or_pos (m * m' * 2 ^ (e + e').toNat) with h0 | h0
    · rw [h0] at h3; simp at h3
    · exact h0
  obtain ⟨m2, e2, hr, hl, hu, herr, hex⟩ := roundRat_spec (xor s s') _ _ hn
    (by positivity : 0 < 2 ^ (-(e + e')).toNat) lo hi hlo hhi (by rw [hx]; exact h1)
    (by rw [hx]; exact h2)
  rw [hx] at herr hex
  exact ⟨_, ⟨m2, e2, hr, rfl⟩, hl, hu, herr, hex⟩

theorem div_spec (a b : F64) (s s' : Bool) (va vb : ℚ) (ha : HasVal a s va) (hb : HasVal b s' vb)
    (hva : 0 < va) (hvb : 0 < vb) (lo hi : Int) (hlo : -1074 ≤ lo) (hhi : hi ≤ 1023)
    (h1 : (2 : ℚ) ^ lo ≤ va / vb) (h2 : va / vb ≤ (2 : ℚ) ^ hi) :
    ∃ v, HasVal (div a b) (xor s s') v ∧ (2 : ℚ) ^ lo ≤ v ∧ v ≤ 2 ^ hi ∧
      (-1022 ≤ lo → |v - va / vb| ≤ va / vb * 2 ^ (-53 : Int)) := by
  obtain ⟨m, e, rfl, hm⟩ := ha
  obtain ⟨m', e', rfl, hm'⟩ := hb
  have hm0 : 0 < m := by
    rcases Nat.eq_zero_or_pos m with h0 | h0
    · rw [h0] at hm; simp at hm; rw [← hm] at hva; exact absurd hva (lt_irrefl _)
    · exact h0
  have hm0' : 0 < m' := by
    rcases Nat.eq_zero_or_pos m' with h0 | h0
    · rw [h0] at hm'; simp at hm'; rw [← hm'] at hvb; exact absurd hvb (lt_irrefl _)
    · exact h0
  have hmq : (m' : ℚ) ≠ 0 := by exact_mod_cast hm0'.ne'
  have hx : (((m * 2 ^ (e - e').toNat : Nat) : ℚ)) / ((m' * 2 ^ (e' - e).toNat : Nat) : ℚ)
      = va / vb := by
    have e1 : e' - e = -(e - e') := by ring
    push_cast
    rw [← hm, ← hm', e1]
    have h3 := zpow_split (e - e')
    have h4 : (2 : ℚ) ^ (e - e') = 2 ^ e / 2 ^ e' := zpow_sub₀ (by norm_num) e e'
    rw [h4] at h3
    have h5 : (0 : ℚ) < 2 ^ (-(e - e')).toNat := by positivity
    have h6 : (0 : ℚ) < 2 ^ e' := by positivity
    field_simp at h3 ⊢
    linear_combination (-(m : ℚ)) * (m' : ℚ) * h3
  unfold div
  simp only [hm0'.ne', if_false]
  obtain ⟨m2, e2, hr, hl, hu, herr, -⟩ := roundRat_spec (xor s s') _ _
    (by positivity : 0 < m * 2 ^ (e - e').toNat)
    (by positivity : 0 < m' * 2 ^ (e' - e).toNat) lo hi hlo hhi (by rw [hx]; exact h1)
    (by rw [hx]; exact h2)
  rw [hx] at herr
  exact ⟨_, ⟨m2, e2, hr, rfl⟩, hl, hu, herr⟩


theorem ofInt_bounds (i : Int) (k : Nat) (h0 : i ≠ 0) (hk : i.natAbs ≤ 2 ^ k) (hk2 : k ≤ 1023) :
    ∃ v, HasVal (ofInt i) (decide (i < 0)) v ∧ 1 ≤ v ∧ v ≤ (2 : ℚ) ^ k ∧
      (i.natAbs < 2 ^ 53 → v = i.natAbs) := by
  have h1 : 1 ≤ i.natAbs := by omega
  obtain ⟨v, hv, hl, hu, hex⟩ := ofInt_spec i 0 k le_rfl (by omega)
    (by simpa using (by exact_mod_cast h1 : (1 : ℚ) ≤ (i.natAbs : ℚ)))
    (by rw [zpow_natCast]; exact_mod_cast hk)
  exact ⟨v, hv, by simpa using hl, by simpa using hu, hex⟩

theorem natAbs_cast (i : Int) (h : 0 ≤ i) : ((i.natAbs : Nat) : ℚ) = (i : ℚ) := by
  rw [Nat.cast_natAbs, abs_of_nonneg h]

end F64

open F64

/-- The numerator of `rate`: finite, of the sign of `d`, between `2^9` and
`2^73` in magnitude, and exactly `800 * |d|` when that is below `2^53`. -/
theorem rate_num (d : Int) (h0 : d ≠ 0) (hd : d.natAbs ≤ 2 ^ 63) :
    ∃ v, HasVal (F64.mul (F64.mul (F64.ofInt d) (F64.ofInt 8)) (F64.ofInt 100)) (decide (d < 0)) v ∧
      (2 : ℚ) ^ (9 : Int) ≤ v ∧ v ≤ (2 : ℚ) ^ (73 : Int) ∧
      (d.natAbs * 800 < 2 ^ 53 → v = (d.natAbs : ℚ) * 800) := by
  obtain ⟨v0, hv0, l0, u0, e0⟩ := ofInt_bounds d 63 h0 hd (by norm_num)
  obtain ⟨c8, h8, -, -, e8⟩ := ofInt_bounds 8 3 (by norm_num) (by decide) (by norm_num)
  obtain ⟨c100, h100, -, -, e100⟩ := ofInt_bounds 100 7 (by norm_num) (by decide) (by norm_num)
  have e8 : c8 = 8 := by simpa using e8 (by decide)
  have e100 : c100 = 100 := by simpa using e100 (by decide)
  subst e8 e100
  have hd8 : decide ((8 : Int) < 0) = false := by decide
  have hd100 : decide ((100 : Int) < 0) = false := by decide
  rw [hd8] at h8
  rw [hd100] at h100
  obtain ⟨v1, hv1, l1, u1, -, x1⟩ := mul_spec _ _ _ _ v0 8 hv0 h8 (by linarith) (by norm_num)
    3 66 (by norm_num) (by norm_num) (by norm_num; linarith) (by norm_num at u0 ⊢; linarith)
  obtain ⟨v2, hv2, l2, u2, -, x2⟩ := mul_spec _ _ _ _ v1 100 hv1 h100
    (lt_of_lt_of_le (by positivity) l1) (by norm_num)
    9 73 (by norm_num) (by norm_num) (by norm_num at l1 ⊢; linarith)
    (by norm_num at u1 ⊢; linarith)
  simp only [Bool.xor_false] at hv2
  refine ⟨v2, hv2, l2, u2, fun hs => ?_⟩
  have a0 : v0 = d.natAbs := e0 (by omega)
  have a1 : v1 = ((d.natAbs * 8 : Nat) : ℚ) := x1 (d.natAbs * 8) (by rw [a0]; push_cast; ring) (by omega)
  have a2 : v2 = ((d.natAbs * 800 : Nat) : ℚ) :=
    x2 (d.natAbs * 800) (by rw [a1]; push_cast; ring) hs
  rw [a2]; push_cast; ring

/-- The denominator of `rate`: finite, positive, between `2^19` and `2^146`,
and exactly `speed * t * 1000000` when that is below `2^53`. -/
theorem rate_den (s t : Int) (hs : 0 < s) (hs2 : s < 2 ^ 63) (ht : 0 < t) (ht2 : t < 2 ^ 63) :
    ∃ v, HasVal (F64.mul (F64.mul (F64.ofInt s) (F64.ofInt t)) (F64.ofInt 1000000)) false v ∧
      (2 : ℚ) ^ (19 : Int) ≤ v ∧ v ≤ (2 : ℚ) ^ (146 : Int) ∧
      (s * t * 1000000 < 2 ^ 53 → v = (s : ℚ) * t * 1000000) := by
  obtain ⟨vs, hvs, ls, us, es⟩ := ofInt_bounds s 63 (by omega) (by omega) (by norm_num)
  obtain ⟨vt, hvt, lt, ut, et⟩ := ofInt_bounds t 63 (by omega) (by omega) (by norm_num)
  obtain ⟨c, hc, -, -, ec⟩ := ofInt_bounds 1000000 20 (by norm_num) (by decide) (by norm_num)
  have ec : c = 1000000 := by simpa using ec (by decide)
  subst ec
  have hds : decide (s < 0) = false := by simp; omega
  have hdt : decide (t < 0) = false := by simp; omega
  have hdc : decide ((1000000 : Int) < 0) = false := by decide
  rw [hds] at hvs
  rw [hdt] at hvt
  rw [hdc] at hc
  have hst1 : 1 ≤ vs * vt := by nlinarith
  have hst2 : vs * vt ≤ (2 : ℚ) ^ (126 : Int) := by
    calc vs * vt ≤ (2 : ℚ) ^ (63 : Nat) * (2 : ℚ) ^ (63 : Nat) :=
          mul_le_mul us ut (by linarith) (by positivity)
      _ = (2 : ℚ) ^ (126 : Int) := by norm_num
  obtain ⟨v1, hv1, l1, u1, -, x1⟩ := mul_spec _ _ _ _ vs vt hvs hvt (by linarith) (by linarith)
    0 126 (by norm_num) (by norm_num) (by simpa using hst1) hst2
  obtain ⟨v2, hv2, l2, u2, -, x2⟩ := mul_spec _ _ _ _ v1 1000000 hv1 hc
    (lt_of_lt_of_le (by positivity) l1) (by norm_num)
    19 146 (by norm_num) (by norm_num) (by norm_num at l1 ⊢; linarith)
    (by norm_num at u1 ⊢; linarith)
  simp only [Bool.xor_false] at hv2
  refine ⟨v2, hv2, l2, u2, fun hsm => ?_⟩
  have hsn : ((s.natAbs : Nat) : Int) = s := Int.natAbs_of_nonneg hs.le
  have htn : ((t.natAbs : Nat) : Int) = t := Int.natAbs_of_nonneg ht.le
  have hprod : s.natAbs * t.natAbs * 1000000 < 2 ^ 53 := by
    zify
    rw [abs_of_pos hs, abs_of_pos ht]
    exact hsm
  have hsb : s.natAbs < 2 ^ 53 := by
    have : 1 ≤ t.natAbs := by omega
    nlinarith
  have htb : t.natAbs < 2 ^ 53 := by
    have : 1 ≤ s.natAbs := by omega
    nlinarith
  have a0 : vs = s.natAbs := es hsb
  have b0 : vt = t.natAbs := et htb
  have a1 : v1 = ((s.natAbs * t.natAbs : Nat) : ℚ) :=
    x1 (s.natAbs * t.natAbs) (by rw [a0, b0]; push_cast; ring) (by nlinarith)
  have a2 : v2 = ((s.natAbs * t.natAbs * 1000000 : Nat) : ℚ) :=
    x2 (s.natAbs * t.natAbs * 1000000) (by rw [a1]; push_cast; ring) hprod
  rw [a2]; push_cast
  rw [natAbs_cast s hs.le, natAbs_cast t ht.le]

/-- For a non-zero delta the rate is finite, non-zero and of the sign of the
delta. -/
theorem rate_sign (d s t : Int) (h0 : d ≠ 0) (hd : d.natAbs ≤ 2 ^ 63)
    (hs : 0 < s) (hs2 : s < 2 ^ 63) (ht : 0 < t) (ht2 : t < 2 ^ 63) :
    ∃ m e, rate d s t = F64.finite (decide (d < 0)) m e ∧ 0 < m := by
  obtain ⟨vn, hn, ln, un, -⟩ := rate_num d h0 hd
  obtain ⟨vd, hdn, ld, ud, -⟩ := rate_den s t hs hs2 ht ht2
  have hvn : 0 < vn := lt_of_lt_of_le (by positivity) ln
  have hvd : 0 < vd := lt_of_lt_of_le (by positivity) ld
  obtain ⟨v, hv, l, -, -⟩ := div_spec _ _ _ _ vn vd hn hdn hvn hvd (-137) 54 (by norm_num)
    (by norm_num)
    (by
      calc (2 : ℚ) ^ (-137 : Int) = (2 : ℚ) ^ (9 : Int) / (2 : ℚ) ^ (146 : Int) := by
            rw [← zpow_sub₀ (by norm_num)]; norm_num
        _ ≤ vn / vd := div_le_div₀ hvn.le ln hvd ud)
    (by
      calc vn / vd ≤ (2 : ℚ) ^ (73 : Int) / (2 : ℚ) ^ (19 : Int) :=
            div_le_div₀ (by positivity) un (by positivity) ld
        _ = (2 : ℚ) ^ (54 : Int) := by rw [← zpow_sub₀ (by norm_num)]; norm_num)
  simp only [Bool.xor_false] at hv
  exact hv.pos_mantissa (lt_of_lt_of_le (by positivity) l)

/-- For a zero delta the rate is `+0`. -/
theorem rate_zero (s t : Int) (hs : 0 < s) (hs2 : s < 2 ^ 63) (ht : 0 < t) (ht2 : t < 2 ^ 63) :
    rate 0 s t = F64.finite false 0 (-1074) := by
  obtain ⟨vd, hdn, ld, ud, -⟩ := rate_den s t hs hs2 ht ht2
  obtain ⟨m, e, hm, hpos⟩ := hdn.pos_mantissa (lt_of_lt_of_le (by positivity) ld)
  have hnum : F64.mul (F64.mul (F64.ofInt 0) (F64.ofInt 8)) (F64.ofInt 100)
      = F64.finite false 0 (-1074) := by decide
  unfold rate
  rw [hnum, hm]
  simp [F64.div, F64.roundRat, hpos.ne']

/-- With operands small enough for the two products to be exact, the rate
is the exact quotient rounded once: its relative error is at most `2^-53`. -/
theorem rate_small (d s t : Int) (hd : 0 < d) (hd2 : d * 800 < 2 ^ 53)
    (hs : 0 < s) (ht : 0 < t) (hst : s * t * 1000000 < 2 ^ 53) :
    ∃ m e, rate d s t = F64.finite false m e ∧
      |(m : ℚ) * 2 ^ e - (d : ℚ) * 8 * 100 / ((s : ℚ) * t * 1000000)|
        ≤ (d : ℚ) * 8 * 100 / ((s : ℚ) * t * 1000000) * 2 ^ (-53 : Int) := by
  have hs2 : s < 2 ^ 63 := by nlinarith
  have ht2 : t < 2 ^ 63 := by nlinarith
  have hdn : ((d.natAbs : Nat) : Int) = d := Int.natAbs_of_nonneg hd.le
  obtain ⟨vn, hn, ln, un, en⟩ := rate_num d (by omega) (by omega)
  obtain ⟨vd, hdd, ld, ud, ed⟩ := rate_den s t hs hs2 ht ht2
  have hvn : 0 < vn := lt_of_lt_of_le (by positivity) ln
  have hvd : 0 < vd := lt_of_lt_of_le (by positivity) ld
  have en2 : vn = (d : ℚ) * 800 := by
    rw [en (by omega), natAbs_cast d hd.le]
  have ed2 := ed hst
  obtain ⟨v, hv, -, -, herr⟩ := div_spec _ _ _ _ vn vd hn hdd hvn hvd (-137) 54 (by norm_num)
    (by norm_num)
    (by
      calc (2 : ℚ) ^ (-137 : Int) = (2 : ℚ) ^ (9 : Int) / (2 : ℚ) ^ (146 : Int) := by
            rw [← zpow_sub₀ (by norm_num)]; norm_num
        _ ≤ vn / vd := div_le_div₀ hvn.le ln hvd ud)
    (by
      calc vn / vd ≤ (2 : ℚ) ^ (73 : Int) / (2 : ℚ) ^ (19 : Int) :=
            div_le_div₀ (by positivity) un (by positivity) ld
        _ = (2 : ℚ) ^ (54 : Int) := by rw [← zpow_sub₀ (by norm_num)]; norm_num)
  have hdneg : decide (d < 0) = false := by simp; omega
  rw [hdneg] at hv
  simp only [Bool.xor_false] at hv
  obtain ⟨m, e, hr, hme⟩ := hv
  refine ⟨m, e, hr, ?_⟩
  have := herr (by norm_num)
  rw [en2, ed2] at this
  rw [hme]
  have e3 : (d : ℚ) * 8 * 100 = (d : ℚ) * 800 := by ring
  rw [e3]
  exact this

/-- For a delta in `[0, 2^63 - 1]` the rate is finite and not negative, and
with operands small enough for the two products to be exact it is within a
relative error of `2^-53` of the exact quotient. -/
theorem rate_nonneg (d s t : Int) (hd0 : 0 ≤ d) (hd : d < 2 ^ 63)
    (hs : 0 < s) (hs2 : s < 2 ^ 63) (ht : 0 < t) (ht2 : t < 2 ^ 63) :
    ∃ m e, rate d s t = F64.finite false m e ∧
      (d * 800 < 2 ^ 53 → s * t * 1000000 < 2 ^ 53 →
        |(m : ℚ) * 2 ^ e - (d : ℚ) * 8 * 100 / ((s : ℚ) * t * 1000000)|
          ≤ (d : ℚ) * 8 * 100 / ((s : ℚ) * t * 1000000) * 2 ^ (-53 : Int)) := by
  rcases eq_or_lt_of_le hd0 with h | h
  · subst h
    exact ⟨0, -1074, rate_zero s t hs hs2 ht ht2, fun _ _ => by simp⟩
  · by_cases hsm : d * 800 < 2 ^ 53 ∧ s * t * 1000000 < 2 ^ 53
    · obtain ⟨m, e, hr, herr⟩ := rate_small d s t h hsm.1 hs ht hsm.2
      exact ⟨m, e, hr, fun _ _ => herr⟩
    · obtain ⟨m, e, hr, -⟩ := rate_sign d s t (by omega) (by omega) hs hs2 ht ht2
      have hdn : decide (d < 0) = false := by simp; omega
      rw [hdn] at hr
      exact ⟨m, e, hr, fun h1 h2 => absurd ⟨h1, h2⟩ hsm⟩

/-- With a zero speed or a zero interval the rate is an infinity or NaN,
whatever the delta. -/
theorem rate_not_finite (d s t : Int) (h : s = 0 ∨ t = 0) : (rate d s t).isFinite = false := by
  have hz : F64.ofInt 0 = F64.finite false 0 (-1074) := by decide
  have mulL : ∀ x y : F64, (x = F64.nan ∨ ∃ sg e, x = F64.finite sg 0 e) →
      (F64.mul x y = F64.nan ∨ ∃ sg e, F64.mul x y = F64.finite sg 0 e) := by
    intro x y hx
    rcases hx with rfl | ⟨sg, e, rfl⟩
    · left; cases y <;> rfl
    · cases y with
      | finite s1 m1 e1 => right; exact ⟨xor sg s1, -1074, by simp [F64.mul, F64.roundRat]⟩
      | inf s1 => left; simp [F64.mul]
      | nan => left; rfl
  have mulR : ∀ x y : F64, (y = F64.nan ∨ ∃ sg e, y = F64.finite sg 0 e) →
      (F64.mul x y = F64.nan ∨ ∃ sg e, F64.mul x y = F64.finite sg 0 e) := by
    intro x y hy
    rcases hy with rfl | ⟨sg, e, rfl⟩
    · left; cases x <;> rfl
    · cases x with
      | finite s1 m1 e1 => right; exact ⟨xor s1 sg, -1074, by simp [F64.mul, F64.roundRat]⟩
      | inf s1 => left; simp [F64.mul]
      | nan => left; rfl
  have divZ : ∀ x z : F64, (z = F64.nan ∨ ∃ sg e, z = F64.finite sg 0 e) →
      (F64.div x z).isFinite = false := by
    intro x z hzz
    rcases hzz with rfl | ⟨sg, e, rfl⟩
    · cases x <;> rfl
    · cases x with
      | finite s1 m1 e1 =>
        by_cases hm : m1 = 0 <;> simp [F64.div, hm, F64.isFinite]
      | inf s1 => rfl
      | nan => rfl
  unfold rate
  apply divZ
  apply mulL
  rcases h with rfl | rfl
  · apply mulL
    right
    exact ⟨_, _, hz⟩
  · apply mulR
    right
    exact ⟨_, _, hz⟩

theorem elems_committed_rx (b : Dashboard) (t : Int) (stats : ifStats) (d : Counter → Int)
    (speed : Int) :
    (committed b t stats d speed).ChartRx.elems
      = b.ChartRx.elems ++ [rate (Int64 (d Counter.ifHCInOctets)) (Int64 speed) t] :=
  elems_append _ _

theorem elems_committed_tx (b : Dashboard) (t : Int) (stats : ifStats) (d : Counter → Int)
    (speed : Int) :
    (committed b t stats d speed).ChartTx.elems
      = b.ChartTx.elems ++ [rate (Int64 (d Counter.ifHCOutOctets)) (Int64 speed) t] :=
  elems_append _ _

/-! ## C10: without wraparound the delta is the plain difference -/

/-- C10. For two consecutive successful samples `prev` and `cur` taken by
`UpdateData` with `prev c ≤ cur c` for all six counters, the second tick
returns, and the delta it computes is, counter by counter, the plain
difference `cur c - prev c`, which is non-negative. -/
theorem C10_delta_is_plain_subtraction (env1 env2 : Env) (b0 b1 : Dashboard) (t : Int)
    (prev cur : Counter → Int)
    (h1 : fetch env1 b0.ifIndex = Run.done (Except.ok (sampleOf prev)))
    (hb1 : UpdateData env1 b0 t = Run.done (b1, none))
    (h2 : fetch env2 b1.ifIndex = Run.done (Except.ok (sampleOf cur)))
    (hge : ∀ c, prev c ≤ cur c) :
    ∃ b2 delta, UpdateData env2 b1 t = Run.done (b2, none) ∧
      computeDelta b1.ifStats (sampleOf cur) = Run.done delta ∧
      ∀ c, delta.get c = some (cur c - prev c) ∧ 0 ≤ cur c - prev c := by
  obtain ⟨-, hst, -, hsp, speed, hs⟩ := tick_inv env1 b0 b1 t _ _ h1 hb1
  rw [← hsp] at hs
  refine ⟨_, sampleOf (fun c => cur c - prev c), tick_step env2 b1 t speed prev cur hst hs h2,
    by rw [hst]; rfl, fun c => ⟨get_sampleOf _ c, ?_⟩⟩
  have := hge c
  omega

/-- Witness of C10: interface 7 read twice, 5 then 8 inbound octets and 0
then 2 outbound octets. -/
theorem C10_delta_is_plain_subtraction_witness :
    (fetch (device (ifMib 7 "Gi0/7" 1000 (octets 5 0)) "") (dashboard7 1000 none).ifIndex
        = Run.done (Except.ok (sampleOf (octets 5 0)))) ∧
    (∀ c, octets 5 0 c ≤ octets 8 2 c) ∧
    ∃ b2 delta,
      UpdateData (device (ifMib 7 "Gi0/7" 1000 (octets 8 2)) "")
          (committed (dashboard7 1000 none) 1 (sampleOf (octets 5 0)) (fun _ => 0) 1000) 1
        = Run.done (b2, none) ∧
      computeDelta
          (committed (dashboard7 1000 none) 1 (sampleOf (octets 5 0)) (fun _ => 0) 1000).ifStats
          (sampleOf (octets 8 2)) = Run.done delta ∧
      ∀ c, delta.get c = some (octets 8 2 c - octets 5 0 c) ∧ 0 ≤ octets 8 2 c - octets 5 0 c :=
  ⟨by rfl, fun c => by cases c <;> decide,
    C10_delta_is_plain_subtraction
      (device (ifMib 7 "Gi0/7" 1000 (octets 5 0)) "")
      (device (ifMib 7 "Gi0/7" 1000 (octets 8 2)) "")
      (dashboard7 1000 none)
      (committed (dashboard7 1000 none) 1 (sampleOf (octets 5 0)) (fun _ => 0) 1000)
      1 (octets 5 0) (octets 8 2) (by rfl) (by decide) (by rfl)
      (fun c => by cases c <;> decide)⟩

/-! ## C1: a counter that went backwards -/

theorem get_shownOf (d : Counter → Int) (c : Counter) : (shownOf d).get c = Int64 (d c) := by
  cases c <;> rfl

theorem Par2_committed (b : Dashboard) (t : Int) (stats : ifStats) (d : Counter → Int)
    (speed : Int) : (committed b t stats d speed).Par2 = some (shownOf d) := rfl

/-- C1, counterexample. The stored sample has 5 inbound octets and the next
one has 3: the delta `UpdateData` computes is `-2`, it is shown as `-2` and
fed as `-2` into the Rx rate, which is negative; the delta is neither
`3 - 5 + 2^64` nor non-negative. -/
theorem C1_counterexample :
    (3 : Int) < 5 ∧
    computeDelta (some (sampleOf (octets 5 0))) (sampleOf (octets 3 0))
      = Run.done (sampleOf (octets (-2) 0)) ∧
    UpdateData (device (ifMib 7 "Gi0/7" 1000 (octets 3 0)) "")
        (dashboard7 1000 (some (sampleOf (octets 5 0)))) 1
      = Run.done
          ({ dashboard7 1000 (some (sampleOf (octets 3 0))) with
              Par2 := some ⟨-2, 0, 0, 0, 0, 0⟩,
              ChartRx := ⟨[F64.finite true 7555786372591432 (-72)], 120⟩,
              ChartTx := ⟨[F64.finite false 0 (-1074)], 120⟩ }, none) ∧
    (-2 : Int) ≠ 3 - 5 + 2 ^ 64 ∧ ¬ (0 : Int) ≤ -2 := by
  refine ⟨by decide, by decide, by decide, by decide, by decide⟩

/-- C1, amended. For two consecutive successful samples with values in
`[0, 2^64 - 1]`, the second tick returns and, for each counter with
`cur c < prev c`, the delta it computes is the exact difference
`cur c - prev c`, a negative number: no wraparound correction is applied.
The value it shows for that counter is `Int64()` of the difference, which
is the difference itself from `-2^63` on and `cur c - prev c + 2^64` below.
For the two octet counters the value shown is also the delta of the rate
the tick appends to the Rx and to the Tx series. -/
theorem C1_amended_backward_counter (env1 env2 : Env) (b0 b1 : Dashboard) (t : Int)
    (prev cur : Counter → Int) (hprev : InRange prev) (hcur : InRange cur)
    (h1 : fetch env1 b0.ifIndex = Run.done (Except.ok (sampleOf prev)))
    (hb1 : UpdateData env1 b0 t = Run.done (b1, none))
    (h2 : fetch env2 b1.ifIndex = Run.done (Except.ok (sampleOf cur))) :
    ∃ b2 delta shown speed, UpdateData env2 b1 t = Run.done (b2, none) ∧
      computeDelta b1.ifStats (sampleOf cur) = Run.done delta ∧
      b2.Par2 = some shown ∧ b1.ifSpeed = some speed ∧
      b2.ChartRx.elems
        = b1.ChartRx.elems ++ [rate (shown.get Counter.ifHCInOctets) (Int64 speed) t] ∧
      b2.ChartTx.elems
        = b1.ChartTx.elems ++ [rate (shown.get Counter.ifHCOutOctets) (Int64 speed) t] ∧
      ∀ c, cur c < prev c →
        delta.get c = some (cur c - prev c) ∧ cur c - prev c < 0 ∧
        shown.get c
          = if -(2 ^ 63) ≤ cur c - prev c then cur c - prev c else cur c - prev c + 2 ^ 64 := by
  obtain ⟨-, hst, -, hsp, speed, hs⟩ := tick_inv env1 b0 b1 t _ _ h1 hb1
  rw [← hsp] at hs
  refine ⟨_, sampleOf (fun c => cur c - prev c), shownOf (fun c => cur c - prev c), speed,
    tick_step env2 b1 t speed prev cur hst hs h2, by rw [hst]; rfl, rfl, hs,
    elems_committed_rx _ _ _ _ _, elems_committed_tx _ _ _ _ _, fun c hc => ?_⟩
  refine ⟨get_sampleOf _ c, by omega, ?_⟩
  rw [get_shownOf]
  have hp := hprev c
  have hq := hcur c
  split_ifs with h
  · exact Int64_eq_self _ h (by omega)
  · exact Int64_low _ (by omega) (by omega)

/-- Witness of C1, amended: interface 7 read twice, 5 then 3 inbound octets. -/
theorem C1_amended_backward_counter_witness :
    InRange (octets 5 0) ∧ InRange (octets 3 0) ∧
    ∃ b2 delta shown speed,
      UpdateData (device (ifMib 7 "Gi0/7" 1000 (octets 3 0)) "")
          (committed (dashboard7 1000 none) 1 (sampleOf (octets 5 0)) (fun _ => 0) 1000) 1
        = Run.done (b2, none) ∧
      computeDelta
          (committed (dashboard7 1000 none) 1 (sampleOf (octets 5 0)) (fun _ => 0) 1000).ifStats
          (sampleOf (octets 3 0)) = Run.done delta ∧
      b2.Par2 = some shown ∧
      (committed (dashboard7 1000 none) 1 (sampleOf (octets 5 0)) (fun _ => 0) 1000).ifSpeed
        = some speed ∧
      b2.ChartRx.elems
        = (committed (dashboard7 1000 none) 1 (sampleOf (octets 5 0))
              (fun _ => 0) 1000).ChartRx.elems
          ++ [rate (shown.get Counter.ifHCInOctets) (Int64 speed) 1] ∧
      b2.ChartTx.elems
        = (committed (dashboard7 1000 none) 1 (sampleOf (octets 5 0))
              (fun _ => 0) 1000).ChartTx.elems
          ++ [rate (shown.get Counter.ifHCOutOctets) (Int64 speed) 1] ∧
      ∀ c, octets 3 0 c < octets 5 0 c →
        delta.get c = some (octets 3 0 c - octets 5 0 c) ∧ octets 3 0 c - octets 5 0 c < 0 ∧
        shown.get c
          = if -(2 ^ 63) ≤ octets 3 0 c - octets 5 0 c then octets 3 0 c - octets 5 0 c
            else octets 3 0 c - octets 5 0 c + 2 ^ 64 :=
  ⟨fun c => by cases c <;> decide, fun c => by cases c <;> decide,
    C1_amended_backward_counter
      (device (ifMib 7 "Gi0/7" 1000 (octets 5 0)) "")
      (device (ifMib 7 "Gi0/7" 1000 (octets 3 0)) "")
      (dashboard7 1000 none)
      (committed (dashboard7 1000 none) 1 (sampleOf (octets 5 0)) (fun _ => 0) 1000)
      1 (octets 5 0) (octets 3 0) (fun c => by cases c <;> decide)
      (fun c => by cases c <;> decide) (by rfl) (by decide) (by rfl)⟩

/-! ## C5: a failed request changes nothing -/

/-- C5. When the counter request of a tick fails (the transport returns an
error, or the response carries an error status other than NoError),
`UpdateData` returns an error and the dashboard it leaves is the dashboard
it found: both series and the stored sample are untouched, so the ticks that
follow run exactly as if the failed tick had not happened. -/
theorem C5_failed_tick_changes_nothing (env : Env) (b : Dashboard) (t : Int) (oids : List Oid)
    (hoids : counterOids env b.ifIndex = Run.done oids)
    (hfail : (∃ msg, env.GetRequest oids = Except.error msg) ∨
      (∃ pdu, env.GetRequest oids = Except.ok pdu ∧ pdu.ErrorStatus ≠ NoError)) :
    (∃ err, UpdateData env b t = Run.done (b, some err)) ∧
      (∀ b1 e, UpdateData env b t = Run.done (b1, e) →
        b1.ChartRx = b.ChartRx ∧ b1.ChartTx = b.ChartTx ∧ b1.ifStats = b.ifStats) ∧
      (∀ env2, ∀ b1 e, UpdateData env b t = Run.done (b1, e) →
        UpdateData env2 b1 t = UpdateData env2 b t) ∧
      ∀ rest, runTicks t b (env :: rest) = runTicks t b rest := by
  have key : ∃ err, UpdateData env b t = Run.done (b, some err) := by
    rcases hfail with ⟨msg, hm⟩ | ⟨pdu, hp, hne⟩
    · refine ⟨GoError.transport msg, UpdateData_of_fetch_error env b t _ ?_⟩
      unfold fetch
      rw [hoids]
      simp only [hm]
    · refine ⟨GoError.failed pdu.ErrorStatus pdu.ErrorIndex,
        UpdateData_of_fetch_error env b t _ ?_⟩
      unfold fetch
      rw [hoids]
      simp only [hp, hne, ne_eq, not_false_eq_true, if_true]
  obtain ⟨err, herr⟩ := key
  refine ⟨⟨err, herr⟩, ?_, ?_, ?_⟩
  · intro b1 e hu
    rw [herr] at hu
    simp only [Run.done.injEq, Prod.mk.injEq] at hu
    obtain ⟨hb, -⟩ := hu
    subst hb
    exact ⟨rfl, rfl, rfl⟩
  · intro env2 b1 e hu
    rw [herr] at hu
    simp only [Run.done.injEq, Prod.mk.injEq] at hu
    obtain ⟨hb, -⟩ := hu
    subst hb
    rfl
  · intro rest
    simp only [runTicks, herr]

/-- Witness of C5: a device that answers with error status 5. -/
theorem C5_failed_tick_changes_nothing_witness :
    counterOids refusingDevice (dashboard7 1000 (some (sampleOf (octets 5 0)))).ifIndex
      = Run.done [[1, 3, 6, 1, 2, 1, 31, 1, 1, 1, 6, 7], [1, 3, 6, 1, 2, 1, 2, 2, 1, 13, 7],
          [1, 3, 6, 1, 2, 1, 2, 2, 1, 14, 7], [1, 3, 6, 1, 2, 1, 31, 1, 1, 1, 10, 7],
          [1, 3, 6, 1, 2, 1, 2, 2, 1, 19, 7], [1, 3, 6, 1, 2, 1, 2, 2, 1, 20, 7]] ∧
    UpdateData refusingDevice (dashboard7 1000 (some (sampleOf (octets 5 0)))) 1
      = Run.done (dashboard7 1000 (some (sampleOf (octets 5 0))), some (GoError.failed 5 1)) ∧
    ∀ rest, runTicks 1 (dashboard7 1000 (some (sampleOf (octets 5 0)))) (refusingDevice :: rest)
      = runTicks 1 (dashboard7 1000 (some (sampleOf (octets 5 0)))) rest :=
  ⟨by decide, by decide,
    (C5_failed_tick_changes_nothing refusingDevice
      (dashboard7 1000 (some (sampleOf (octets 5 0)))) 1
      [[1, 3, 6, 1, 2, 1, 31, 1, 1, 1, 6, 7], [1, 3, 6, 1, 2, 1, 2, 2, 1, 13, 7],
        [1, 3, 6, 1, 2, 1, 2, 2, 1, 14, 7], [1, 3, 6, 1, 2, 1, 31, 1, 1, 1, 10, 7],
        [1, 3, 6, 1, 2, 1, 2, 2, 1, 19, 7], [1, 3, 6, 1, 2, 1, 2, 2, 1, 20, 7]] (by decide)
      (Or.inr ⟨⟨5, 1, fun _ => none, fun _ => []⟩, rfl, by decide⟩)).2.2.2⟩

/-! ## C2: the utilization formula -/

/-- C2, counterexample. With link speed 3, interval 1 and an inbound delta
of 1 octet the value appended to the Rx series is the float
`4919131752989214 * 2^-64`, not the rational `(1 * 8 * 100) / (3 * 1 * 1000000)`. -/
theorem C2_counterexample :
    UpdateData (device (ifMib 7 "Gi0/7" 3 (octets 1 0)) "")
        (dashboard7 3 (some (sampleOf (octets 0 0)))) 1
      = Run.done
          ({ dashboard7 3 (some (sampleOf (octets 1 0))) with
              Par2 := some ⟨1, 0, 0, 0, 0, 0⟩,
              ChartRx := ⟨[F64.finite false 4919131752989214 (-64)], 120⟩,
              ChartTx := ⟨[F64.finite false 0 (-1074)], 120⟩ }, none) ∧
    F64.toRat (F64.finite false 4919131752989214 (-64))
      ≠ some ((1 * 8 * 100 : ℚ) / (3 * 1 * 1000000)) := by
  refine ⟨by decide, ?_⟩
  simp only [F64.toRat, ne_eq, Option.some.injEq]
  norm_num

/-- C2, amended. For every successful tick with a stored previous sample,
link speed and interval in `[1, 2^63 - 1]` and octet deltas `dIn`, `dOut` in
`[0, 2^63 - 1]`, the values appended to the Rx and Tx series are
`rate dIn speed t` and `rate dOut speed t`: the formula
`(d * 8 * 100) / (speed * t * 1000000)` evaluated in `float64`, every
operation rounded to nearest even. Each is finite and not negative, and when
`d * 800` and `speed * t * 1000000` are below `2^53` it is within a relative
error of `2^-53` of the exact rational. For `d = 12500000`, `speed = 1000`,
`t = 1` it is exactly 10. -/
theorem C2_amended_rate_is_rounded_formula (env : Env) (b : Dashboard) (t speed : Int)
    (prev cur : Counter → Int)
    (hp : b.ifStats = some (sampleOf prev)) (hs : b.ifSpeed = some speed)
    (hf : fetch env b.ifIndex = Run.done (Except.ok (sampleOf cur)))
    (hs1 : 0 < speed) (hs2 : speed < 2 ^ 63) (ht1 : 0 < t) (ht2 : t < 2 ^ 63)
    (hin1 : 0 ≤ cur Counter.ifHCInOctets - prev Counter.ifHCInOctets)
    (hin2 : cur Counter.ifHCInOctets - prev Counter.ifHCInOctets ≤ 2 ^ 63 - 1)
    (hout1 : 0 ≤ cur Counter.ifHCOutOctets - prev Counter.ifHCOutOctets)
    (hout2 : cur Counter.ifHCOutOctets - prev Counter.ifHCOutOctets ≤ 2 ^ 63 - 1) :
    (∃ b1, UpdateData env b t = Run.done (b1, none) ∧
      b1.ChartRx.elems = b.ChartRx.elems
        ++ [rate (cur Counter.ifHCInOctets - prev Counter.ifHCInOctets) speed t] ∧
      b1.ChartTx.elems = b.ChartTx.elems
        ++ [rate (cur Counter.ifHCOutOctets - prev Counter.ifHCOutOctets) speed t]) ∧
    (∀ d : Int, 0 ≤ d → d ≤ 2 ^ 63 - 1 →
      ∃ m e, rate d speed t = F64.finite false m e ∧
        (d * 800 < 2 ^ 53 → speed * t * 1000000 < 2 ^ 53 →
          |(m : ℚ) * 2 ^ e - (d : ℚ) * 8 * 100 / ((speed : ℚ) * t * 1000000)|
            ≤ (d : ℚ) * 8 * 100 / ((speed : ℚ) * t * 1000000) * 2 ^ (-53 : Int))) ∧
    F64.toRat (rate 12500000 1000 1) = some 10 := by
  refine ⟨⟨_, tick_step env b t speed prev cur hp hs hf, ?_, ?_⟩, ?_, ?_⟩
  · rw [elems_committed_rx, Int64_eq_self _ (by omega) (by omega),
      Int64_eq_self _ (by omega) (by omega)]
  · rw [elems_committed_tx, Int64_eq_self _ (by omega) (by omega),
      Int64_eq_self _ (by omega) (by omega)]
  · intro d hd0 hd1
    exact rate_nonneg d speed t hd0 (by omega) hs1 hs2 ht1 ht2
  · have h : rate 12500000 1000 1 = F64.finite false 5629499534213120 (-49) := by decide
    rw [h]
    simp only [F64.toRat]
    norm_num

/-- Witness of C2, amended: link speed 1000, interval 1, 12500000 inbound
octets between the two samples. -/
theorem C2_amended_rate_is_rounded_formula_witness :
    ∃ b1,
      UpdateData (device (ifMib 7 "Gi0/7" 1000 (octets 12500000 0)) "")
          (dashboard7 1000 (some (sampleOf (octets 0 0)))) 1 = Run.done (b1, none) ∧
      b1.ChartRx.elems = (dashboard7 1000 (some (sampleOf (octets 0 0)))).ChartRx.elems
        ++ [rate (octets 12500000 0 Counter.ifHCInOctets - octets 0 0 Counter.ifHCInOctets)
              1000 1] ∧
      b1.ChartTx.elems = (dashboard7 1000 (some (sampleOf (octets 0 0)))).ChartTx.elems
        ++ [rate (octets 12500000 0 Counter.ifHCOutOctets - octets 0 0 Counter.ifHCOutOctets)
              1000 1] :=
  (C2_amended_rate_is_rounded_formula
    (device (ifMib 7 "Gi0/7" 1000 (octets 12500000 0)) "")
    (dashboard7 1000 (some (sampleOf (octets 0 0)))) 1 1000 (octets 0 0) (octets 12500000 0)
    rfl rfl (by rfl) (by decide) (by decide) (by decide) (by decide)
    (by decide) (by decide) (by decide) (by decide)).1

/-! ## C3: zero speed, zero interval -/

/-- C3, counterexample. With link speed 0 (and again with interval 0) the
tick returns a nil error and appends `+Inf` to the Rx series and NaN to the
Tx series. -/
theorem C3_counterexample :
    UpdateData (device (ifMib 7 "Gi0/7" 0 (octets 1 0)) "")
        (dashboard7 0 (some (sampleOf (octets 0 0)))) 1
      = Run.done
          ({ dashboard7 0 (some (sampleOf (octets 1 0))) with
              Par2 := some ⟨1, 0, 0, 0, 0, 0⟩,
              ChartRx := ⟨[F64.inf false], 120⟩,
              ChartTx := ⟨[F64.nan], 120⟩ }, none) ∧
    UpdateData (device (ifMib 7 "Gi0/7" 1000 (octets 1 0)) "")
        (dashboard7 1000 (some (sampleOf (octets 0 0)))) 0
      = Run.done
          ({ dashboard7 1000 (some (sampleOf (octets 1 0))) with
              Par2 := some ⟨1, 0, 0, 0, 0, 0⟩,
              ChartRx := ⟨[F64.inf false], 120⟩,
              ChartTx := ⟨[F64.nan], 120⟩ }, none) := by
  refine ⟨by decide, by decide⟩

/-- C3, amended. For every tick that decodes a sample, the first one or a
later one, in which the link speed is 0 or the interval `t` is 0,
`UpdateData` returns a nil error and appends one value to the Rx series and
one to the Tx series; both values are an infinity or NaN. -/
theorem C3_amended_zero_divisor_appends_non_finite (env : Env) (b : Dashboard) (t speed : Int)
    (cur : Counter → Int)
    (hp : b.ifStats = none ∨ ∃ prev, b.ifStats = some (sampleOf prev))
    (hs : b.ifSpeed = some speed)
    (hf : fetch env b.ifIndex = Run.done (Except.ok (sampleOf cur)))
    (hz : speed = 0 ∨ t = 0) :
    ∃ b1 rx tx, UpdateData env b t = Run.done (b1, none) ∧
      b1.ChartRx.elems = b.ChartRx.elems ++ [rx] ∧ b1.ChartTx.elems = b.ChartTx.elems ++ [tx] ∧
      rx.isFinite = false ∧ tx.isFinite = false := by
  have hz2 : Int64 speed = 0 ∨ t = 0 := by
    rcases hz with h | h
    · left; rw [h]; decide
    · right; exact h
  rcases hp with hp | ⟨prev, hp⟩
  · exact ⟨_, _, _, tick_first env b t speed _ hp hs hf, elems_committed_rx _ _ _ _ _,
      elems_committed_tx _ _ _ _ _, rate_not_finite _ _ _ hz2, rate_not_finite _ _ _ hz2⟩
  · exact ⟨_, _, _, tick_step env b t speed prev cur hp hs hf, elems_committed_rx _ _ _ _ _,
      elems_committed_tx _ _ _ _ _, rate_not_finite _ _ _ hz2, rate_not_finite _ _ _ hz2⟩

/-- Witness of C3, amended: link speed 0. -/
theorem C3_amended_zero_divisor_appends_non_finite_witness :
    ((0 : Int) = 0 ∨ (1 : Int) = 0) ∧
    ∃ b1 rx tx,
      UpdateData (device (ifMib 7 "Gi0/7" 0 (octets 1 0)) "")
          (dashboard7 0 (some (sampleOf (octets 0 0)))) 1 = Run.done (b1, none) ∧
      b1.ChartRx.elems = (dashboard7 0 (some (sampleOf (octets 0 0)))).ChartRx.elems ++ [rx] ∧
      b1.ChartTx.elems = (dashboard7 0 (some (sampleOf (octets 0 0)))).ChartTx.elems ++ [tx] ∧
      rx.isFinite = false ∧ tx.isFinite = false :=
  ⟨Or.inl rfl,
    C3_amended_zero_divisor_appends_non_finite
      (device (ifMib 7 "Gi0/7" 0 (octets 1 0)) "")
      (dashboard7 0 (some (sampleOf (octets 0 0)))) 1 0 (octets 1 0)
      (Or.inr ⟨octets 0 0, rfl⟩) rfl (by rfl) (Or.inl rfl)⟩

/-! ## C9: deltas beyond the signed 64-bit range -/

/-- C9, counterexample. The stored sample has 0 inbound octets and the next
one has `2^64 - 1`: the delta `2^64 - 1` exceeds `2^63 - 1`, it is shown as
`-1` and the value appended to the Rx series is the negative float
`-7555786372591432 * 2^-73`, not `((2^64 - 1) * 8 * 100) / (1000 * 1 * 1000000)`. -/
theorem C9_counterexample :
    (2 : Int) ^ 63 - 1 < (2 ^ 64 - 1) - 0 ∧
    UpdateData (device (ifMib 7 "Gi0/7" 1000 (octets (2 ^ 64 - 1) 0)) "")
        (dashboard7 1000 (some (sampleOf (octets 0 0)))) 1
      = Run.done
          ({ dashboard7 1000 (some (sampleOf (octets (2 ^ 64 - 1) 0))) with
              Par2 := some ⟨-1, 0, 0, 0, 0, 0⟩,
              ChartRx := ⟨[F64.finite true 7555786372591432 (-73)], 120⟩,
              ChartTx := ⟨[F64.finite false 0 (-1074)], 120⟩ }, none) ∧
    (-1 : Int) ≠ (2 ^ 64 - 1) - 0 ∧
    F64.toRat (F64.finite true 7555786372591432 (-73))
      ≠ some (((2 ^ 64 - 1) * 8 * 100 : ℚ) / (1000 * 1 * 1000000)) := by
  refine ⟨by decide, by decide, by decide, ?_⟩
  simp only [F64.toRat, ne_eq, Option.some.injEq]
  norm_num

/-- C9, amended. For a successful tick with a stored previous sample, both
samples in `[0, 2^64 - 1]`, link speed and interval in `[1, 2^63 - 1]`: the
subtraction is exact, but when an octet delta `d` exceeds `2^63 - 1` the
value shown for it and fed into the utilization formula is `Int64()` of it,
`d - 2^64`, a negative number, and the value appended to the series is
`rate (d - 2^64) speed t`, a finite negative float. -/
theorem C9_amended_delta_truncated_to_int64 (env : Env) (b : Dashboard) (t speed : Int)
    (prev cur : Counter → Int) (hprev : InRange prev) (hcur : InRange cur)
    (hp : b.ifStats = some (sampleOf prev)) (hs : b.ifSpeed = some speed)
    (hf : fetch env b.ifIndex = Run.done (Except.ok (sampleOf cur)))
    (hs1 : 0 < speed) (hs2 : speed < 2 ^ 63) (ht1 : 0 < t) (ht2 : t < 2 ^ 63) :
    ∃ b1 delta shown, UpdateData env b t = Run.done (b1, none) ∧
      computeDelta b.ifStats (sampleOf cur) = Run.done delta ∧ b1.Par2 = some shown ∧
      (∀ d, d = cur Counter.ifHCInOctets - prev Counter.ifHCInOctets → 2 ^ 63 - 1 < d →
        delta.ifHCInOctets = some d ∧ shown.ifHCInOctets = d - 2 ^ 64 ∧ d - 2 ^ 64 < 0 ∧
        b1.ChartRx.elems = b.ChartRx.elems ++ [rate (d - 2 ^ 64) speed t] ∧
        ∃ m e, rate (d - 2 ^ 64) speed t = F64.finite true m e ∧ 0 < m) ∧
      (∀ d, d = cur Counter.ifHCOutOctets - prev Counter.ifHCOutOctets → 2 ^ 63 - 1 < d →
        delta.ifHCOutOctets = some d ∧ shown.ifHCOutOctets = d - 2 ^ 64 ∧ d - 2 ^ 64 < 0 ∧
        b1.ChartTx.elems = b.ChartTx.elems ++ [rate (d - 2 ^ 64) speed t] ∧
        ∃ m e, rate (d - 2 ^ 64) speed t = F64.finite true m e ∧ 0 < m) := by
  have hneg : ∀ d : Int, 2 ^ 63 - 1 < d → d ≤ 2 ^ 64 - 1 →
      ∃ m e, rate (d - 2 ^ 64) speed t = F64.finite true m e ∧ 0 < m := by
    intro d h1 h2
    obtain ⟨m, e, hr, hm⟩ := rate_sign (d - 2 ^ 64) speed t (by omega) (by omega) hs1 hs2 ht1 ht2
    have hd : decide (d - 2 ^ 64 < 0) = true := by simp; omega
    rw [hd] at hr
    exact ⟨m, e, hr, hm⟩
  refine ⟨_, sampleOf (fun c => cur c - prev c), shownOf (fun c => cur c - prev c),
    tick_step env b t speed prev cur hp hs hf, by rw [hp]; rfl, rfl, ?_, ?_⟩
  · intro d hd hbig
    have h1 := hprev Counter.ifHCInOctets
    have h2 := hcur Counter.ifHCInOctets
    have e64 : Int64 (cur Counter.ifHCInOctets - prev Counter.ifHCInOctets) = d - 2 ^ 64 := by
      rw [← hd]; exact Int64_high d (by omega) (by omega)
    refine ⟨by rw [hd]; rfl, ?_, by omega, ?_, hneg d hbig (by omega)⟩
    · show Int64 (cur Counter.ifHCInOctets - prev Counter.ifHCInOctets) = d - 2 ^ 64
      exact e64
    · rw [elems_committed_rx, e64, Int64_eq_self speed (by omega) hs2]
  · intro d hd hbig
    have h1 := hprev Counter.ifHCOutOctets
    have h2 := hcur Counter.ifHCOutOctets
    have e64 : Int64 (cur Counter.ifHCOutOctets - prev Counter.ifHCOutOctets) = d - 2 ^ 64 := by
      rw [← hd]; exact Int64_high d (by omega) (by omega)
    refine ⟨by rw [hd]; rfl, ?_, by omega, ?_, hneg d hbig (by omega)⟩
    · show Int64 (cur Counter.ifHCOutOctets - prev Counter.ifHCOutOctets) = d - 2 ^ 64
      exact e64
    · rw [elems_committed_tx, e64, Int64_eq_self speed (by omega) hs2]

/-- Witness of C9, amended: inbound octets go from 0 to `2^64 - 1`. -/
theorem C9_amended_delta_truncated_to_int64_witness :
    InRange (octets 0 0) ∧ InRange (octets (2 ^ 64 - 1) 0) ∧
    ∃ b1 delta shown,
      UpdateData (device (ifMib 7 "Gi0/7" 1000 (octets (2 ^ 64 - 1) 0)) "")
          (dashboard7 1000 (some (sampleOf (octets 0 0)))) 1 = Run.done (b1, none) ∧
      computeDelta (dashboard7 1000 (some (sampleOf (octets 0 0)))).ifStats
          (sampleOf (octets (2 ^ 64 - 1) 0)) = Run.done delta ∧
      b1.Par2 = some shown ∧
      delta.ifHCInOctets = some (2 ^ 64 - 1) ∧ shown.ifHCInOctets = 2 ^ 64 - 1 - 2 ^ 64 ∧
      ∃ m e, rate (2 ^ 64 - 1 - 2 ^ 64) 1000 1 = F64.finite true m e ∧ 0 < m := by
  refine ⟨fun c => by cases c <;> decide, fun c => by cases c <;> decide, ?_⟩
  obtain ⟨b1, delta, shown, h1, h2, h3, h4, -⟩ :=
    C9_amended_delta_truncated_to_int64
      (device (ifMib 7 "Gi0/7" 1000 (octets (2 ^ 64 - 1) 0)) "")
      (dashboard7 1000 (some (sampleOf (octets 0 0)))) 1 1000 (octets 0 0)
      (octets (2 ^ 64 - 1) 0) (fun c => by cases c <;> decide)
      (fun c => by cases c <;> decide) rfl rfl (by rfl) (by decide) (by decide) (by decide)
      (by decide)
  obtain ⟨h5, h6, -, -, h7⟩ := h4 (2 ^ 64 - 1) (by decide) (by decide)
  exact ⟨b1, delta, shown, h1, h2, h3, h5, h6, h7⟩

/-! ## C6: the first tick -/

/-- C6, counterexample. The sample with 5 inbound octets read by a first
tick (no sample stored) and read by a later tick whose stored sample is the
same: the two calls return the same dashboard, zeros in `Par2` and `+0`
appended to both series. -/
theorem C6_counterexample :
    UpdateData (device (ifMib 7 "Gi0/7" 1000 (octets 5 0)) "") (dashboard7 1000 none) 1
      = Run.done
          ({ dashboard7 1000 (some (sampleOf (octets 5 0))) with
              Par2 := some ⟨0, 0, 0, 0, 0, 0⟩,
              ChartRx := ⟨[F64.finite false 0 (-1074)], 120⟩,
              ChartTx := ⟨[F64.finite false 0 (-1074)], 120⟩ }, none) ∧
    UpdateData (device (ifMib 7 "Gi0/7" 1000 (octets 5 0)) "")
        (dashboard7 1000 (some (sampleOf (octets 5 0)))) 1
      = Run.done
          ({ dashboard7 1000 (some (sampleOf (octets 5 0))) with
              Par2 := some ⟨0, 0, 0, 0, 0, 0⟩,
              ChartRx := ⟨[F64.finite false 0 (-1074)], 120⟩,
              ChartTx := ⟨[F64.finite false 0 (-1074)], 120⟩ }, none) := by
  refine ⟨by decide, by decide⟩

/-- C6, amended. The first successful tick of a freshly resolved interface
shows zero for the six deltas and appends to each series the utilization of a
zero delta, `rate 0 speed t`, which is `+0` for a link speed and an interval
in `[1, 2^63 - 1]`. A later tick that reads the sample it has stored returns
exactly the same dashboard: the first tick is not distinguishable from a
genuine zero delta. -/
theorem C6_amended_first_tick_is_a_zero_delta (env : Env) (b : Dashboard) (t speed : Int)
    (s : Counter → Int) (hs : b.ifSpeed = some speed)
    (hf : fetch env b.ifIndex = Run.done (Except.ok (sampleOf s))) :
    ∃ b1, UpdateData env { b with ifStats := none } t = Run.done (b1, none) ∧
      UpdateData env { b with ifStats := some (sampleOf s) } t = Run.done (b1, none) ∧
      b1.Par2 = some ⟨0, 0, 0, 0, 0, 0⟩ ∧
      b1.ChartRx.elems = b.ChartRx.elems ++ [rate 0 (Int64 speed) t] ∧
      b1.ChartTx.elems = b.ChartTx.elems ++ [rate 0 (Int64 speed) t] ∧
      (0 < speed → speed < 2 ^ 63 → 0 < t → t < 2 ^ 63 →
        rate 0 (Int64 speed) t = F64.finite false 0 (-1074)) := by
  have h0 : Int64 0 = 0 := by decide
  have hfun : (fun c => s c - s c) = fun _ => (0 : Int) := by
    funext c; omega
  have hfirst := tick_first env { b with ifStats := none } t speed (sampleOf s) rfl hs hf
  have hlater := tick_step env { b with ifStats := some (sampleOf s) } t speed s s rfl hs hf
  rw [hfun] at hlater
  refine ⟨_, hfirst, ?_, ?_, ?_, ?_, ?_⟩
  · rw [hlater]; rfl
  · rw [Par2_committed]
    simp only [shownOf, h0]
  · rw [elems_committed_rx, h0]
  · rw [elems_committed_tx, h0]
  · intro h1 h2 h3 h4
    rw [Int64_eq_self speed (by omega) h2]
    exact rate_zero speed t h1 h2 h3 h4

/-- Witness of C6, amended: interface 7 with 5 inbound octets. -/
theorem C6_amended_first_tick_is_a_zero_delta_witness :
    ∃ b1,
      UpdateData (device (ifMib 7 "Gi0/7" 1000 (octets 5 0)) "")
          { dashboard7 1000 none with ifStats := none } 1 = Run.done (b1, none) ∧
      UpdateData (device (ifMib 7 "Gi0/7" 1000 (octets 5 0)) "")
          { dashboard7 1000 none with ifStats := some (sampleOf (octets 5 0)) } 1
        = Run.done (b1, none) ∧
      b1.Par2 = some ⟨0, 0, 0, 0, 0, 0⟩ ∧
      b1.ChartRx.elems = (dashboard7 1000 none).ChartRx.elems ++ [rate 0 (Int64 1000) 1] ∧
      b1.ChartTx.elems = (dashboard7 1000 none).ChartTx.elems ++ [rate 0 (Int64 1000) 1] ∧
      ((0 : Int) < 1000 → (1000 : Int) < 2 ^ 63 → (0 : Int) < 1 → (1 : Int) < 2 ^ 63 →
        rate 0 (Int64 1000) 1 = F64.finite false 0 (-1074)) :=
  C6_amended_first_tick_is_a_zero_delta
    (device (ifMib 7 "Gi0/7" 1000 (octets 5 0)) "") (dashboard7 1000 none) 1 1000
    (octets 5 0) rfl (by rfl)

/-! ## C7: first match wins -/

theorem IndexFrom_ne_iff (substr : List Char) :
    ∀ (s : List Char) (i : Nat), IndexFrom substr s i ≠ -1 ↔ substr <:+: s := by
  intro s
  induction s with
  | nil =>
    intro i
    unfold IndexFrom
    cases substr with
    | nil => simp
    | cons a l => simp
  | cons c cs ih =>
    intro i
    unfold IndexFrom
    by_cases h : substr.isPrefixOf (c :: cs) = true
    · rw [if_pos h]
      have hp : substr <+: c :: cs := List.isPrefixOf_iff_prefix.1 h
      constructor
      · intro _; exact hp.isInfix
      · intro _; omega
    · rw [if_neg h, ih (i + 1), List.infix_cons_iff]
      have hp : ¬ substr <+: c :: cs := fun hp => h (List.isPrefixOf_iff_prefix.2 hp)
      constructor
      · intro h1; exact Or.inr h1
      · intro h1; rcases h1 with h1 | h1
        · exact absurd h1 hp
        · exact h1

theorem Index_ne_iff (env : Env) (name : String) (vb : VarBind) :
    Index (env.ToUpper vb.Variable.Str) (env.ToUpper name) ≠ -1 ↔ Matches env name vb :=
  IndexFrom_ne_iff _ _ 0

theorem walkLoop_first (env : Env) (name : String) (base : Oid) :
    ∀ (l : List VarBind) (i : Nat) (vb : VarBind), l.get? i = some vb → Matches env name vb →
      (∀ j vb1, j < i → l.get? j = some vb1 → ¬ Matches env name vb1) →
      walkLoop env name base l
        = match vb.Oid.get? base.length with
          | some ifIndex => Run.done (vb.Variable.Str, ifIndex, none)
          | none => Run.panic := by
  intro l
  induction l with
  | nil => intro i vb h; simp at h
  | cons a l ih =>
    intro i vb hget hm hbefore
    cases i with
    | zero =>
      simp only [List.get?_cons_zero, Option.some.injEq] at hget
      subst hget
      unfold walkLoop
      rw [if_pos ((Index_ne_iff env name a).2 hm)]
    | succ k =>
      have ha : ¬ Matches env name a := hbefore 0 a (Nat.succ_pos k) rfl
      unfold walkLoop
      rw [if_neg (fun h => ha ((Index_ne_iff env name a).1 h))]
      exact ih k vb (by simpa using hget) hm
        (fun j vb1 hj hg => hbefore (j + 1) vb1 (by omega) (by simpa using hg))

theorem walkLoop_notFound_iff (env : Env) (name : String) (base : Oid) :
    ∀ (l : List VarBind),
      walkLoop env name base l = Run.done ("", 0, some (GoError.notFound name))
        ↔ ∀ vb ∈ l, ¬ Matches env name vb := by
  intro l
  induction l with
  | nil => simp [walkLoop]
  | cons a l ih =>
    unfold walkLoop
    by_cases hm : Matches env name a
    · rw [if_pos ((Index_ne_iff env name a).2 hm)]
      constructor
      · intro h
        cases hg : a.Oid.get? base.length with
        | none => rw [hg] at h; simp at h
        | some idx => rw [hg] at h; simp at h
      · intro h
        exact absurd hm (h a (List.mem_cons_self a l))
    · rw [if_neg (fun h => hm ((Index_ne_iff env name a).1 h)), ih]
      constructor
      · intro h vb hvb
        rcases List.mem_cons.1 hvb with rfl | h1
        · exact hm
        · exact h vb h1
      · intro h vb hvb
        exact h vb (List.mem_cons_of_mem a hvb)

theorem parseIfName_walk (env : Env) (name : String) (base : Oid) (pdu : Pdu)
    (hn : MatchString name = false)
    (hoid : env.MustNewOid "1.3.6.1.2.1.31.1.1.1.1" = some base)
    (hwalk : env.GetBulkWalk [base] 0 10 = Except.ok pdu)
    (hst : pdu.ErrorStatus = NoError) :
    parseIfName env name = walkLoop env name base (pdu.MatchBaseOids base) := by
  unfold parseIfName
  simp [hn, hoid, hwalk, hst]

/-- C7. For a token that is not of the numeric-suffix form and a successful
traversal of the interface-name table (every entry's OID extends the base
OID): `parseIfName` returns the name and the index of the first entry, in
traversal order, whose upper-cased name contains the upper-cased token, even
when later entries match too; and it returns the error "not found" exactly
when no entry of the traversal matches. -/
theorem C7_first_match_wins (env : Env) (name : String) (base : Oid) (pdu : Pdu)
    (hn : MatchString name = false)
    (hoid : env.MustNewOid "1.3.6.1.2.1.31.1.1.1.1" = some base)
    (hwalk : env.GetBulkWalk [base] 0 10 = Except.ok pdu)
    (hst : pdu.ErrorStatus = NoError)
    (hrows : ∀ vb ∈ pdu.MatchBaseOids base, base.length < vb.Oid.length) :
    (∀ i vb, (pdu.MatchBaseOids base).get? i = some vb → Matches env name vb →
      (∀ j vb1, j < i → (pdu.MatchBaseOids base).get? j = some vb1 → ¬ Matches env name vb1) →
      ∃ ifIndex, vb.Oid.get? base.length = some ifIndex ∧
        parseIfName env name = Run.done (vb.Variable.Str, ifIndex, none)) ∧
    (parseIfName env name = Run.done ("", 0, some (GoError.notFound name))
      ↔ ∀ vb ∈ pdu.MatchBaseOids base, ¬ Matches env name vb) ∧
    ((∃ ifName ifIndex,
        parseIfName env name = Run.done (ifName, ifIndex, some (GoError.notFound name)))
      ↔ ∀ vb ∈ pdu.MatchBaseOids base, ¬ Matches env name vb) := by
  have hparse := parseIfName_walk env name base pdu hn hoid hwalk hst
  refine ⟨?_, ?_, ?_⟩
  · intro i vb hget hm hbefore
    have hlen : base.length < vb.Oid.length := hrows vb (List.get?_mem hget)
    obtain ⟨ifIndex, hidx⟩ : ∃ ifIndex, vb.Oid.get? base.length = some ifIndex :=
      ⟨vb.Oid.get ⟨base.length, hlen⟩, List.get?_eq_get hlen⟩
    refine ⟨ifIndex, hidx, ?_⟩
    rw [hparse, walkLoop_first env name base _ i vb hget hm hbefore, hidx]
  · rw [hparse]
    exact walkLoop_notFound_iff env name base _
  · rw [hparse, ← walkLoop_notFound_iff env name base]
    constructor
    · rintro ⟨ifName, ifIndex, hr⟩
      by_contra hcon
      have hex : ¬ ∀ vb ∈ pdu.MatchBaseOids base, ¬ Matches env name vb :=
        fun h => hcon ((walkLoop_notFound_iff env name base _).2 h)
      push_neg at hex
      obtain ⟨vb, hvb, hm⟩ := hex
      -- take the first matching entry
      have hfirst : ∃ i vb, (pdu.MatchBaseOids base).get? i = some vb ∧ Matches env name vb ∧
          ∀ j vb1, j < i → (pdu.MatchBaseOids base).get? j = some vb1 →
            ¬ Matches env name vb1 := by
        classical
        obtain ⟨k, hk⟩ := List.get?_of_mem hvb
        have hP : ∃ i, ∃ v, (pdu.MatchBaseOids base).get? i = some v ∧ Matches env name v :=
          ⟨k, vb, hk, hm⟩
        refine ⟨Nat.find hP, ?_⟩
        obtain ⟨v, hv1, hv2⟩ := Nat.find_spec hP
        refine ⟨v, hv1, hv2, fun j vb1 hj hg hmm => ?_⟩
        exact Nat.find_min hP hj ⟨vb1, hg, hmm⟩
      obtain ⟨i, v, hg, hmv, hbef⟩ := hfirst
      have hlen : base.length < v.Oid.length := hrows v (List.get?_mem hg)
      have hidx : v.Oid.get? base.length = some (v.Oid.get ⟨base.length, hlen⟩) :=
        List.get?_eq_get hlen
      rw [walkLoop_first env name base _ i v hg hmv hbef, hidx] at hr
      simp at hr
    · intro h
      exact ⟨"", 0, h⟩

/-- Witness of C7: interfaces 1 and 2 are named `Gi0/1` and `Gi0/2`, the
token `gi0` matches both and resolves to interface 1. -/
theorem C7_first_match_wins_witness :
    MatchString "gi0" = false ∧
    Matches (device (ifMib 1 "Gi0/1" 1000 (octets 0 0) ++ ifMib 2 "Gi0/2" 1000 (octets 0 0)) "")
      "gi0" (textObj [1, 3, 6, 1, 2, 1, 31, 1, 1, 1, 1, 2] "Gi0/2") ∧
    ∃ ifIndex,
      (textObj [1, 3, 6, 1, 2, 1, 31, 1, 1, 1, 1, 1] "Gi0/1").Oid.get?
          [1, 3, 6, 1, 2, 1, 31, 1, 1, 1, 1].length = some ifIndex ∧
      parseIfName
          (device (ifMib 1 "Gi0/1" 1000 (octets 0 0) ++ ifMib 2 "Gi0/2" 1000 (octets 0 0)) "")
          "gi0"
        = Run.done ((textObj [1, 3, 6, 1, 2, 1, 31, 1, 1, 1, 1, 1] "Gi0/1").Variable.Str,
            ifIndex, none) :=
  ⟨by decide, by unfold Matches; decide,
    (C7_first_match_wins
      (device (ifMib 1 "Gi0/1" 1000 (octets 0 0) ++ ifMib 2 "Gi0/2" 1000 (octets 0 0)) "")
      "gi0" [1, 3, 6, 1, 2, 1, 31, 1, 1, 1, 1]
      (walkPdu (ifMib 1 "Gi0/1" 1000 (octets 0 0) ++ ifMib 2 "Gi0/2" 1000 (octets 0 0)))
      (by decide) (by decide) rfl rfl (by decide)).1 0
      (textObj [1, 3, 6, 1, 2, 1, 31, 1, 1, 1, 1, 1] "Gi0/1") (by decide)
      (by unfold Matches; decide) (fun j _ hj _ => absurd hj (Nat.not_lt_zero j))⟩

/-! ## C8: a numeric suffix without a name -/

/-- C8, failing input. The token `.7` on a device that holds interface 3
only: the lookup of the name of interface 7 is answered with status NoError
and a variable without a value. `parseIfName` returns a nil error, index 7
and the text of that variable as the name, the empty string or a
placeholder, and `NewDashboard` then panics on the missing speed instead of
returning an error. On the same device the lookup of the missing interface
by name, the other branch of `parseIfName`, does return an error, and so
does the numeric branch when the request itself fails. -/
theorem C8_nameless_lookup_returns_an_identity :
    MatchString ".7" = true ∧
    parseIfName (device (ifMib 3 "Gi0/3" 1000 (octets 0 0)) "") ".7" = Run.done ("", 7, none) ∧
    parseIfName (device (ifMib 3 "Gi0/3" 1000 (octets 0 0)) "NoSuchInstance") ".7"
      = Run.done ("NoSuchInstance", 7, none) ∧
    NewDashboard (device (ifMib 3 "Gi0/3" 1000 (octets 0 0)) "") ".7" = Run.panic ∧
    parseIfName (device (ifMib 3 "Gi0/3" 1000 (octets 0 0)) "") "Gi0/7"
      = Run.done ("", 0, some (GoError.notFound "Gi0/7")) ∧
    NewDashboard (device (ifMib 3 "Gi0/3" 1000 (octets 0 0)) "") "Gi0/7"
      = Run.done (none, some (GoError.notFound "Gi0/7")) ∧
    parseIfName refusingDevice ".7" = Run.done ("", 0, some (GoError.failed 5 1)) ∧
    NewDashboard refusingDevice ".7" = Run.done (none, some (GoError.failed 5 1)) := by
  refine ⟨by decide, by decide, by decide, by decide, by decide, by decide, by decide,
    by decide⟩

/-- The two failures the numeric branch of `parseIfName` checks, at lines 136
to 142: when the lookup of the interface-name object fails with a transport
error or an error status other than NoError, `parseIfName` returns that
error with the zero name and the zero index, and `NewDashboard` returns the
error and no dashboard. -/
theorem parseIfName_failed_lookup (env : Env) (name : String) (oid : Oid)
    (hn : MatchString name = true)
    (hoid : env.MustNewOid ("1.3.6.1.2.1.31.1.1.1.1" ++ name) = some oid)
    (hfail : (∃ msg, env.GetRequest [oid] = Except.error msg) ∨
      (∃ pdu, env.GetRequest [oid] = Except.ok pdu ∧ pdu.ErrorStatus ≠ NoError)) :
    ∃ err, parseIfName env name = Run.done ("", 0, some err) ∧
      NewDashboard env name = Run.done (none, some err) := by
  have key : ∃ err, parseIfName env name = Run.done ("", 0, some err) := by
    rcases hfail with ⟨msg, hm⟩ | ⟨pdu, hp, hne⟩
    · refine ⟨GoError.transport msg, ?_⟩
      unfold parseIfName
      simp only [hn, if_true, hoid, hm]
    · refine ⟨GoError.failed pdu.ErrorStatus pdu.ErrorIndex, ?_⟩
      unfold parseIfName
      simp only [hn, if_true, hoid, hp, hne, ne_eq, not_false_eq_true]
  obtain ⟨err, herr⟩ := key
  refine ⟨err, herr, ?_⟩
  unfold NewDashboard
  simp only [herr]

/-- The token `.7` on a device that does not answer: an instance of
`parseIfName_failed_lookup`. -/
theorem parseIfName_failed_lookup_dead_device :
    MatchString ".7" = true ∧
    ∃ err, parseIfName deadDevice ".7" = Run.done ("", 0, some err) ∧
      NewDashboard deadDevice ".7" = Run.done (none, some err) :=
  ⟨by decide,
    parseIfName_failed_lookup deadDevice ".7" [1, 3, 6, 1, 2, 1, 31, 1, 1, 1, 1, 7]
      (by decide) (by decide) (Or.inl ⟨"timeout", rfl⟩)⟩

/-! ## C4: the two series -/

theorem tick_appends (env : Env) (b b1 : Dashboard) (t : Int)
    (h : UpdateData env b t = Run.done (b1, none)) :
    (∃ rx, b1.ChartRx.elems = b.ChartRx.elems ++ [rx]) ∧
      ∃ tx, b1.ChartTx.elems = b.ChartTx.elems ++ [tx] := by
  unfold UpdateData at h
  cases hf : fetch env b.ifIndex with
  | panic => rw [hf] at h; simp at h
  | done r =>
    cases r with
    | error err => rw [hf] at h; simp at h
    | ok stats =>
      rw [hf] at h
      simp only [] at h
      obtain ⟨delta, text, dIn, dOut, speed, -, -, -, -, -, hr⟩ := commit_cases b t stats _ h
      simp only [Prod.mk.injEq, and_true] at hr
      subst hr
      exact ⟨⟨_, elems_append _ _⟩, ⟨_, elems_append _ _⟩⟩

theorem runTicks_of_allSucceed (t : Int) :
    ∀ (envs : List Env) (b : Dashboard), allSucceed t b envs = true →
      ∃ b1, runTicks t b envs = Run.done b1 ∧
        (∃ rxs, rxs.length = envs.length ∧ b1.ChartRx.elems = b.ChartRx.elems ++ rxs) ∧
        ∃ txs, txs.length = envs.length ∧ b1.ChartTx.elems = b.ChartTx.elems ++ txs := by
  intro envs
  induction envs with
  | nil => intro b _; exact ⟨b, rfl, ⟨[], rfl, by simp⟩, ⟨[], rfl, by simp⟩⟩
  | cons env rest ih =>
    intro b h
    unfold allSucceed at h
    cases hu : UpdateData env b t with
    | panic => rw [hu] at h; simp at h
    | done r =>
      obtain ⟨b1, e⟩ := r
      cases e with
      | some err => rw [hu] at h; simp at h
      | none =>
        rw [hu] at h
        simp only [] at h
        obtain ⟨b2, hrun, ⟨rxs, hrl, hrx⟩, ⟨txs, htl, htx⟩⟩ := ih b1 h
        obtain ⟨⟨rx, hrx1⟩, ⟨tx, htx1⟩⟩ := tick_appends env b b1 t hu
        refine ⟨b2, by simp only [runTicks, hu]; exact hrun,
          ⟨rx :: rxs, by simp [hrl], ?_⟩, ⟨tx :: txs, by simp [htl], ?_⟩⟩
        · rw [hrx, hrx1]; simp
        · rw [htx, htx1]; simp

theorem allSucceed_take (t : Int) :
    ∀ (envs : List Env) (b : Dashboard) (k : Nat), allSucceed t b envs = true →
      allSucceed t b (envs.take k) = true := by
  intro envs
  induction envs with
  | nil => intro b k h; simpa using h
  | cons env rest ih =>
    intro b k h
    cases k with
    | zero => rfl
    | succ k =>
      unfold allSucceed at h
      simp only [List.take_succ_cons]
      unfold allSucceed
      cases hu : UpdateData env b t with
      | panic => rw [hu] at h; simp at h
      | done r =>
        obtain ⟨b1, e⟩ := r
        cases e with
        | some err => rw [hu] at h; simp at h
        | none =>
          rw [hu] at h
          simp only [] at h ⊢
          exact ih b1 k h

theorem runTicks_append (t : Int) :
    ∀ (l1 l2 : List Env) (b b1 : Dashboard), runTicks t b l1 = Run.done b1 →
      runTicks t b (l1 ++ l2) = runTicks t b1 l2 := by
  intro l1
  induction l1 with
  | nil => intro l2 b b1 h; simp only [runTicks, Run.done.injEq] at h; subst h; rfl
  | cons env rest ih =>
    intro l2 b b1 h
    simp only [List.cons_append, runTicks] at h ⊢
    cases hu : UpdateData env b t with
    | panic => rw [hu] at h; simp at h
    | done r =>
      obtain ⟨b2, e⟩ := r
      rw [hu] at h
      simp only [] at h ⊢
      exact ih l2 b2 b1 h

theorem NewDashboard_fresh (env : Env) (name : String) (b : Dashboard)
    (h : NewDashboard env name = Run.done (some b, none)) :
    b.ChartRx = make F64 120 ∧ b.ChartTx = make F64 120 ∧ b.ifStats = none := by
  unfold NewDashboard at h
  simp only [] at h
  split at h
  · simp at h
  · simp at h
  · split at h
    · split at h
      · simp at h
      · split at h
        · simp at h
        · obtain ⟨v1, -, h⟩ := Run.bind_eq_done h
          obtain ⟨v2, -, h⟩ := Run.bind_eq_done h
          obtain ⟨v3, -, h⟩ := Run.bind_eq_done h
          obtain ⟨speed, -, h⟩ := Run.bind_eq_done h
          simp only [Run.done.injEq, Prod.mk.injEq, Option.some.injEq, and_true] at h
          subst h
          exact ⟨rfl, rfl, rfl⟩
    · simp at h

theorem allSucceed_append (t : Int) :
    ∀ (l1 l2 : List Env) (b : Dashboard), allSucceed t b (l1 ++ l2) = true →
      ∃ b1, runTicks t b l1 = Run.done b1 ∧ allSucceed t b1 l2 = true := by
  intro l1
  induction l1 with
  | nil => intro l2 b h; exact ⟨b, rfl, by simpa using h⟩
  | cons env rest ih =>
    intro l2 b h
    simp only [List.cons_append] at h
    unfold allSucceed at h
    cases hu : UpdateData env b t with
    | panic => rw [hu] at h; simp at h
    | done r =>
      obtain ⟨b1, e⟩ := r
      cases e with
      | some err => rw [hu] at h; simp at h
      | none =>
        rw [hu] at h
        simp only [] at h
        obtain ⟨b2, hrun, hall⟩ := ih l2 b1 h
        exact ⟨b2, by simp only [runTicks, hu]; exact hrun, hall⟩

/-- C4, counterexample. On the dashboard `NewDashboard` creates for the
token `.7`, 121 successful ticks leave 121 values in the Rx series and 121 in
the Tx series, more than the capacity 120 and more than `min 121 120`. With
capacity 3, appending 1, 2, 3, 4, 5 leaves all five values, not the last
three. -/
theorem C4_counterexample :
    NewDashboard (device (ifMib 7 "Gi0/7" 1000 (octets 5 0)) "") ".7"
      = Run.done
          (some { dashboard7 1000 none with
            Par1 := some ⟨"router", "Gi0/7", "uplink", 1000⟩ }, none) ∧
    allSucceed 1
        { dashboard7 1000 none with Par1 := some ⟨"router", "Gi0/7", "uplink", 1000⟩ }
        (List.replicate 121 (device (ifMib 7 "Gi0/7" 1000 (octets 5 0)) "")) = true ∧
    (∃ b,
      runTicks 1
          { dashboard7 1000 none with Par1 := some ⟨"router", "Gi0/7", "uplink", 1000⟩ }
          (List.replicate 121 (device (ifMib 7 "Gi0/7" 1000 (octets 5 0)) "")) = Run.done b ∧
      b.ChartRx.elems.length = 121 ∧ b.ChartTx.elems.length = 121) ∧
    ¬ (121 ≤ min 121 120) ∧
    (append (append (append (append (append (make Nat 3) 1) 2) 3) 4) 5).elems = [1, 2, 3, 4, 5] ∧
    [1, 2, 3, 4, 5] ≠ [3, 4, 5] := by
  have hall : allSucceed 1
      { dashboard7 1000 none with Par1 := some ⟨"router", "Gi0/7", "uplink", 1000⟩ }
      (List.replicate 121 (device (ifMib 7 "Gi0/7" 1000 (octets 5 0)) "")) = true := by decide
  refine ⟨by decide, hall, ?_, by decide, by decide, by decide⟩
  obtain ⟨b, hrun, ⟨rxs, hrl, hrx⟩, ⟨txs, htl, htx⟩⟩ := runTicks_of_allSucceed 1 _ _ hall
  refine ⟨b, hrun, ?_, ?_⟩
  · rw [hrx, List.length_append, hrl]; rfl
  · rw [htx, List.length_append, htl]; rfl

/-- C4, amended. After any sequence of `n` successful ticks on a freshly
created dashboard, the Rx series and the Tx series each hold all `n`
utilization values in chronological order: the series after the first `k`
ticks is the first `k` entries of the final series, for every `k ≤ n`. No
entry is ever evicted; 120 is the capacity the two slices are allocated
with, and `append` grows them beyond it. -/
theorem C4_amended_series_keep_every_value (env0 : Env) (name : String) (b0 : Dashboard)
    (t : Int) (envs : List Env)
    (hnew : NewDashboard env0 name = Run.done (some b0, none))
    (hall : allSucceed t b0 envs = true) :
    ∃ b, runTicks t b0 envs = Run.done b ∧
      b.ChartRx.elems.length = envs.length ∧ b.ChartTx.elems.length = envs.length ∧
      ∀ k, k ≤ envs.length →
        ∃ bk, runTicks t b0 (envs.take k) = Run.done bk ∧
          bk.ChartRx.elems = b.ChartRx.elems.take k ∧
          bk.ChartTx.elems = b.ChartTx.elems.take k := by
  obtain ⟨hrx0, htx0, -⟩ := NewDashboard_fresh env0 name b0 hnew
  have hrx0e : b0.ChartRx.elems = [] := by rw [hrx0]; rfl
  have htx0e : b0.ChartTx.elems = [] := by rw [htx0]; rfl
  obtain ⟨b, hrun, ⟨rxs, hrl, hrx⟩, ⟨txs, htl, htx⟩⟩ := runTicks_of_allSucceed t envs b0 hall
  refine ⟨b, hrun, by rw [hrx, hrx0e]; simpa using hrl, by rw [htx, htx0e]; simpa using htl, ?_⟩
  intro k hk
  have hsplit : envs.take k ++ envs.drop k = envs := List.take_append_drop k envs
  have hall2 : allSucceed t b0 (envs.take k ++ envs.drop k) = true := by rw [hsplit]; exact hall
  obtain ⟨bk, hrunk, hallk⟩ := allSucceed_append t _ _ b0 hall2
  have hallk0 : allSucceed t b0 (envs.take k) = true := allSucceed_take t envs b0 k hall
  obtain ⟨bk1, hrunk1, ⟨rx1, hr1l, hr1⟩, ⟨tx1, ht1l, ht1⟩⟩ :=
    runTicks_of_allSucceed t (envs.take k) b0 hallk0
  rw [hrunk] at hrunk1
  simp only [Run.done.injEq] at hrunk1
  subst hrunk1
  obtain ⟨b2, hrun2, ⟨rx2, -, hr2⟩, ⟨tx2, -, ht2⟩⟩ :=
    runTicks_of_allSucceed t (envs.drop k) bk hallk
  have hb : b2 = b := by
    have h3 := runTicks_append t (envs.take k) (envs.drop k) b0 bk hrunk
    rw [hsplit, hrun, hrun2] at h3
    simpa using h3.symm
  subst hb
  have hlen : (envs.take k).length = k := by simp [hk]
  refine ⟨bk, hrunk, ?_, ?_⟩
  · rw [hr2, List.take_left']
    rw [hr1, hrx0e]; simpa [hlen] using hr1l
  · rw [ht2, List.take_left']
    rw [ht1, htx0e]; simpa [hlen] using ht1l

/-- Witness of C4, amended: 121 ticks on the dashboard of interface 7. -/
theorem C4_amended_series_keep_every_value_witness :
    ∃ b,
      runTicks 1
          { dashboard7 1000 none with Par1 := some ⟨"router", "Gi0/7", "uplink", 1000⟩ }
          (List.replicate 121 (device (ifMib 7 "Gi0/7" 1000 (octets 5 0)) "")) = Run.done b ∧
      b.ChartRx.elems.length
        = (List.replicate 121 (device (ifMib 7 "Gi0/7" 1000 (octets 5 0)) "")).length ∧
      b.ChartTx.elems.length
        = (List.replicate 121 (device (ifMib 7 "Gi0/7" 1000 (octets 5 0)) "")).length ∧
      ∀ k, k ≤ (List.replicate 121 (device (ifMib 7 "Gi0/7" 1000 (octets 5 0)) "")).length →
        ∃ bk,
          runTicks 1
              { dashboard7 1000 none with
                Par1 := some ⟨"router", "Gi0/7", "uplink", 1000⟩ }
              ((List.replicate 121 (device (ifMib 7 "Gi0/7" 1000 (octets 5 0)) "")).take k)
            = Run.done bk ∧
          bk.ChartRx.elems = b.ChartRx.elems.take k ∧
          bk.ChartTx.elems = b.ChartTx.elems.take k :=
  C4_amended_series_keep_every_value (device (ifMib 7 "Gi0/7" 1000 (octets 5 0)) "") ".7"
    { dashboard7 1000 none with Par1 := some ⟨"router", "Gi0/7", "uplink", 1000⟩ } 1
    (List.replicate 121 (device (ifMib 7 "Gi0/7" 1000 (octets 5 0)) "")) (by decide)
    (by decide)

end PortUtilization
